import Mathlib

/-!
Formal model of `pytest_cromwell.py` (pytest-wdl repository): test-data
materialization (`DataFile`), tolerant file comparison (MD5 hashes and the
`diff -y --suppress-common-lines | wc -l` pipeline), the data catalog
(`Data.__getitem__`), the Cromwell harness (`run_workflow`,
`get_cromwell_outputs`) and the scoped directory resolver (`_test_dir`).

The filesystem, network and process state are modelled explicitly by a
`World` record threaded through every operation.  Python exceptions are
modelled by `Except PyErr`.  Machine-level details kept faithful to the
source include: Python truthiness of `url`/`contents` (empty strings count
as absent), the `(fd, name)` tuple stored by `tempfile.mkstemp` in
`DataFile.__init__`, `dict.pop` mutating the manifest in
`Data.__getitem__`, and the `lines[i+1]` lookahead in
`get_cromwell_outputs` that can fall off the end of the list.
-/

namespace PytestCromwell

/-! ## Character-list string helpers (kept structurally recursive) -/

/-- Split a character list on a separator; always returns at least one piece. -/
def chSplit (sep : Char) : List Char → List (List Char)
  | [] => [[]]
  | c :: rest =>
    match chSplit sep rest with
    | [] => [[c]]
    | p :: ps => if c = sep then [] :: p :: ps else (c :: p) :: ps

/-- Lines of a POSIX text file as tools like `diff`, `grep`, `cut` and `cat`
see them: pieces separated by a newline, a trailing newline ending the last
line rather than opening an empty one.  (Agrees with Python `splitlines`
on strings that use only `\n`.) -/
def splitNlChars (l : List Char) : List (List Char) :=
  let ps := chSplit '\n' l
  if ps.getLast? = some [] then ps.dropLast else ps

def splitNl (s : String) : List String := (splitNlChars s.data).map String.mk

/-- Join lines, terminating each with a newline (the shape produced by
shell redirections such as `cut ... > file`). -/
def joinNlChars : List (List Char) → List Char
  | [] => []
  | l :: rest => l ++ '\n' :: joinNlChars rest

def joinNl (ls : List String) : String := String.mk (joinNlChars (ls.map String.data))

/-- Join lines with a newline separator (Python `"\n".join(...)`). -/
def joinWithNl : List String → String
  | [] => ""
  | [l] => l
  | l :: rest => l ++ "\n" ++ joinWithNl rest

def listStartsWith : List Char → List Char → Bool
  | [], _ => true
  | _ :: _, [] => false
  | p :: ps, c :: cs => p = c && listStartsWith ps cs

def strStartsWith (s pat : String) : Bool := listStartsWith pat.data s.data

def strEndsWith (s pat : String) : Bool := listStartsWith pat.data.reverse s.data.reverse

def listContainsStr : List String → String → Bool
  | [], _ => false
  | d :: rest, p => if d = p then true else listContainsStr rest p

/-- Python `str.splitlines(keepends=False)` restricted to the terminators
`\n`, `\r\n` and `\r` (the ones that occur in captured process output).
The fuel argument (any bound above the input length) keeps the recursion
structural. -/
def pySplitlinesAux : Nat → List Char → List Char → List String
  | 0, _, _ => []
  | _ + 1, [], cur => if cur.isEmpty then [] else [String.mk cur.reverse]
  | fuel + 1, c :: rest, cur =>
    if c = '\n' then String.mk cur.reverse :: pySplitlinesAux fuel rest []
    else if c = '\r' then
      match rest with
      | '\n' :: rest2 => String.mk cur.reverse :: pySplitlinesAux fuel rest2 []
      | _ => String.mk cur.reverse :: pySplitlinesAux fuel rest []
    else pySplitlinesAux fuel rest (c :: cur)

def pySplitlines (s : String) : List String := pySplitlinesAux (s.data.length + 1) s.data []

def pyIsSpace (c : Char) : Bool :=
  decide (c = ' ') || decide (c = '\t') || decide (c = '\n') || decide (c = '\r') ||
  decide (c = Char.ofNat 11) || decide (c = Char.ofNat 12)

/-- Python `str.lstrip()` (whitespace variant). -/
def pyLstrip (s : String) : String := String.mk (s.data.dropWhile pyIsSpace)

/-- Python truthiness of an optional string: `None` and `""` are falsy. -/
def otruthy : Option String → Bool
  | none => false
  | some s => !s.data.isEmpty

/-- Decimal digits of a natural number (structurally recursive on fuel). -/
def natCharsAux : Nat → Nat → List Char
  | 0, _ => []
  | _, 0 => []
  | fuel + 1, n => natCharsAux fuel (n / 10) ++ [Char.ofNat (48 + n % 10)]

def natStr (n : Nat) : String := if n = 0 then ("0") else String.mk (natCharsAux (n + 1) n)

def intStr (n : Int) : String := if n < 0 then ("-") ++ natStr n.natAbs else natStr n.toNat

/-! ## Paths (`os.path`) -/

def isAbsPath (p : String) : Bool := listStartsWith ['/'] p.data

def joinPath (a b : String) : String :=
  if isAbsPath b then b
  else if strEndsWith a ("/") then a ++ b else a ++ "/" ++ b

def pyAbspath (cwd p : String) : String := if isAbsPath p then p else joinPath cwd p

/-- Directory part of a path (`os.path.dirname`). -/
def dirName (p : String) : String :=
  let r := p.data.reverse
  match r.dropWhile (fun c => decide (¬(c = '/'))) with
  | [] => ""
  | [_] => "/"
  | _ :: rest => String.mk rest.reverse

/-! ## The world: files, directories, the network, cwd, temp-name counter,
and a monotone counter of physical file writes -/

structure World where
  files : List (String × String)
  dirs : List String
  net : List (String × String)
  cwd : String
  tmpCounter : Nat
  writes : Nat
deriving DecidableEq

def alookup {α : Type} : List (String × α) → String → Option α
  | [], _ => none
  | (k, v) :: rest, key => if k = key then some v else alookup rest key

def fsGet (w : World) (p : String) : Option String := alookup w.files p

def fileExists (w : World) (p : String) : Bool := (fsGet w p).isSome

def dirExists (w : World) (p : String) : Bool := listContainsStr w.dirs p

/-- Model of `os.path.exists`. -/
def pathExists (w : World) (p : String) : Bool := fileExists w p || dirExists w p

/-- Writing a file bumps the physical-write counter. -/
def writeFileW (w : World) (p c : String) : World :=
  { w with files := (p, c) :: w.files.filter (fun kv => decide (¬(kv.1 = p))),
           writes := w.writes + 1 }

/-- Model of `os.makedirs(..., exist_ok=True)`. -/
def makeDirs (w : World) (p : String) : World := { w with dirs := p :: w.dirs }

/-- Model of `shutil.rmtree`: removes the directory and everything below it. -/
def rmTree (w : World) (p : String) : World :=
  { w with dirs := w.dirs.filter (fun d => decide (¬(d = p)) && !strStartsWith d (p ++ "/")),
           files := w.files.filter (fun kv => !strStartsWith kv.1 (p ++ "/")) }

/-- Model of `tempfile.mkdtemp`: a fresh directory under `/tmp`. -/
def mkdTemp (w : World) : String × World :=
  let name := "/tmp/tmp" ++ natStr w.tmpCounter
  (name, { w with dirs := name :: w.dirs, tmpCounter := w.tmpCounter + 1 })

/-- Model of `tempfile.mkstemp(suffix=...)`: creates a fresh empty file. -/
def mkTempFile0 (w : World) (suffix : String) : String × World :=
  let name := "/tmp/tmp" ++ natStr w.tmpCounter ++ suffix
  (name, writeFileW { w with tmpCounter := w.tmpCounter + 1 } name (""))

/-- Model of `tempfile.mkstemp(dir=...)`. -/
def mkTempFile (w : World) (dir : String) : String × World :=
  let name := dir ++ "/tmp" ++ natStr w.tmpCounter
  (name, writeFileW { w with tmpCounter := w.tmpCounter + 1 } name (""))

/-! ## Python exceptions raised by the module -/

inductive PyErr where
  | valueError        -- DataFile._persist: no url, contents or local file available
  | indexError
  | typeError
  | attributeError
  | osError           -- FileNotFoundError / IsADirectoryError
  | urlError
  | keyError (k : String)
  | jsonDecodeError
  | contentMismatch (file1 file2 : String)                        -- _compare_hashes
  | diffMismatch (diffLines allowed : Nat) (file1 file2 : String) -- _diff_contents
  | missingOutput (key : String)   -- "Workflow did not generate output {key}"
  | assertionFailed                -- bare `assert expected_value == outputs[key]`
  | outputParse                    -- "No outputs JSON found in Cromwell stdout"
  | unknownName (name : String)    -- Data.__getitem__: "Unrecognized name {name}"
deriving DecidableEq

/-! ## JSON values (`json.loads` / `json.dump`)

Numbers are modelled as integers; none of the JSON documents handled by the
module under test (inputs files, Cromwell output blocks, the manifest)
require floats for the properties proved here, and a non-integral numeric
token simply makes the model parser fail. -/

inductive Json where
  | null : Json
  | bool (b : Bool) : Json
  | num (n : Int) : Json
  | str (s : String) : Json
  | arr (elems : List Json) : Json
  | obj (fields : List (String × Json)) : Json

mutual

/-- Structural equality of JSON values (Python `==` on decoded documents). -/
def Json.beq : Json → Json → Bool
  | .null, .null => true
  | .bool a, .bool b => a == b
  | .num a, .num b => a == b
  | .str a, .str b => a == b
  | .arr xs, .arr ys => Json.beqList xs ys
  | .obj xs, .obj ys => Json.beqFields xs ys
  | _, _ => false

def Json.beqList : List Json → List Json → Bool
  | [], [] => true
  | x :: xs, y :: ys => Json.beq x y && Json.beqList xs ys
  | _, _ => false

def Json.beqFields : List (String × Json) → List (String × Json) → Bool
  | [], [] => true
  | (k1, v1) :: xs, (k2, v2) :: ys => k1 == k2 && Json.beq v1 v2 && Json.beqFields xs ys
  | _, _ => false

end


/-! ### A small JSON parser (model of `json.loads`) -/

def jSkipWs (l : List Char) : List Char :=
  l.dropWhile (fun c =>
    decide (c = ' ') || decide (c = '\t') || decide (c = '\n') || decide (c = '\r'))

def hexVal (c : Char) : Option Nat :=
  if c.isDigit then some (c.toNat - 48)
  else if 97 ≤ c.toNat ∧ c.toNat ≤ 102 then some (c.toNat - 87)
  else if 65 ≤ c.toNat ∧ c.toNat ≤ 70 then some (c.toNat - 55)
  else none

def jEscOf (e : Char) : Option Char :=
  if e = '"' then some '"'
  else if e = '\\' then some '\\'
  else if e = '/' then some '/'
  else if e = 'n' then some '\n'
  else if e = 't' then some '\t'
  else if e = 'r' then some '\r'
  else if e = 'b' then some (Char.ofNat 8)
  else if e = 'f' then some (Char.ofNat 12)
  else none

/-- Parse the body of a JSON string literal after the opening quote;
returns the decoded characters and the input after the closing quote. -/
def jStringBody : List Char → Option (List Char × List Char)
  | [] => none
  | c :: rest =>
    if c = '"' then some ([], rest)
    else if c = '\\' then
      match rest with
      | [] => none
      | 'u' :: h1 :: h2 :: h3 :: h4 :: rest3 =>
        match hexVal h1, hexVal h2, hexVal h3, hexVal h4 with
        | some v1, some v2, some v3, some v4 =>
          match jStringBody rest3 with
          | some (content, r) => some (Char.ofNat (4096 * v1 + 256 * v2 + 16 * v3 + v4) :: content, r)
          | none => none
        | _, _, _, _ => none
      | e :: rest2 =>
        match jEscOf e with
        | some ch =>
          match jStringBody rest2 with
          | some (content, r) => some (ch :: content, r)
          | none => none
        | none => none
    else
      match jStringBody rest with
      | some (content, r) => some (c :: content, r)
      | none => none

def jTakeDigits : List Char → List Char × List Char
  | [] => ([], [])
  | c :: rest =>
    if c.isDigit then
      let p := jTakeDigits rest
      (c :: p.1, p.2)
    else ([], c :: rest)

def digitsToNat (ds : List Char) : Nat := ds.foldl (fun a c => a * 10 + (c.toNat - 48)) 0

/-- Reject the numeric tokens the model does not cover (floats / exponents). -/
def jIntGuard (r : List Char) : Bool :=
  match r with
  | [] => true
  | c :: _ => !(decide (c = '.') || decide (c = 'e') || decide (c = 'E'))

mutual

def jParseVal : Nat → List Char → Option (Json × List Char)
  | 0, _ => none
  | fuel + 1, input =>
    match jSkipWs input with
    | [] => none
    | c :: rest =>
      if c = 'n' then
        if listStartsWith ['u', 'l', 'l'] rest then some (.null, rest.drop 3) else none
      else if c = 't' then
        if listStartsWith ['r', 'u', 'e'] rest then some (.bool true, rest.drop 3) else none
      else if c = 'f' then
        if listStartsWith ['a', 'l', 's', 'e'] rest then some (.bool false, rest.drop 4) else none
      else if c = '"' then
        match jStringBody rest with
        | some (content, r) => some (.str (String.mk content), r)
        | none => none
      else if c = '-' then
        match jTakeDigits rest with
        | ([], _) => none
        | (ds, r) => if jIntGuard r then some (.num (-(digitsToNat ds : Int)), r) else none
      else if c.isDigit then
        match jTakeDigits (c :: rest) with
        | (ds, r) => if jIntGuard r then some (.num (digitsToNat ds : Int), r) else none
      else if c = Char.ofNat 123 then jParseObj fuel rest
      else if c = '[' then jParseArr fuel rest
      else none

def jParseArr : Nat → List Char → Option (Json × List Char)
  | 0, _ => none
  | fuel + 1, input =>
    match jSkipWs input with
    | ']' :: r => some (.arr [], r)
    | l =>
      match jParseVal fuel l with
      | none => none
      | some (v, r) => jParseArrRest fuel [v] r

def jParseArrRest : Nat → List Json → List Char → Option (Json × List Char)
  | 0, _, _ => none
  | fuel + 1, acc, input =>
    match jSkipWs input with
    | ']' :: r => some (.arr acc.reverse, r)
    | ',' :: r =>
      match jParseVal fuel r with
      | none => none
      | some (v, r2) => jParseArrRest fuel (v :: acc) r2
    | _ => none

def jParseObj : Nat → List Char → Option (Json × List Char)
  | 0, _ => none
  | fuel + 1, input =>
    match jSkipWs input with
    | c :: r =>
      if c = Char.ofNat 125 then some (.obj [], r)
      else jParseObjRest fuel [] (c :: r) true
    | [] => none

def jParseObjRest : Nat → List (String × Json) → List Char → Bool → Option (Json × List Char)
  | 0, _, _, _ => none
  | fuel + 1, acc, input, isFirst =>
    let input' :=
      if isFirst then some (jSkipWs input)
      else
        match jSkipWs input with
        | c :: r =>
          if c = Char.ofNat 125 then none else if c = ',' then some (jSkipWs r) else none
        | [] => none
    match input' with
    | none =>
      match jSkipWs input with
      | c :: r => if c = Char.ofNat 125 && !isFirst then some (.obj acc.reverse, r) else none
      | [] => none
    | some l =>
      match l with
      | '"' :: r =>
        match jStringBody r with
        | none => none
        | some (key, r2) =>
          match jSkipWs r2 with
          | ':' :: r3 =>
            match jParseVal fuel r3 with
            | none => none
            | some (v, r4) => jParseObjRest fuel ((String.mk key, v) :: acc) r4 false
          | _ => none
      | _ => none

end

def jsonParse (s : String) : Option Json :=
  match jParseVal (2 * s.data.length + 2) s.data with
  | some (v, rest) => if (jSkipWs rest).isEmpty then some v else none
  | none => none

/-! ### JSON serialization (model of `json.dump`, default separators) -/

def hexDigit (n : Nat) : Char :=
  if n < 10 then Char.ofNat (48 + n) else Char.ofNat (87 + n)

def hex4 (n : Nat) : List Char :=
  [hexDigit (n / 4096 % 16), hexDigit (n / 256 % 16), hexDigit (n / 16 % 16), hexDigit (n % 16)]

def jEscChar (c : Char) : List Char :=
  if c = '"' then ['\\', '"']
  else if c = '\\' then ['\\', '\\']
  else if c = '\n' then ['\\', 'n']
  else if c = '\t' then ['\\', 't']
  else if c = '\r' then ['\\', 'r']
  else if c = Char.ofNat 8 then ['\\', 'b']
  else if c = Char.ofNat 12 then ['\\', 'f']
  else if c.toNat < 32 || c.toNat > 126 then '\\' :: 'u' :: hex4 c.toNat
  else [c]

def jQuote (s : String) : String :=
  String.mk ('"' :: s.data.foldr (fun c acc => jEscChar c ++ acc) ['"'])

mutual

def Json.dump : Json → String
  | .null => "null"
  | .bool b => if b then ("true") else ("false")
  | .num n => intStr n
  | .str s => jQuote s
  | .arr xs => "[" ++ Json.dumpList xs ++ "]"
  | .obj fs => "\x7b" ++ Json.dumpFields fs ++ "\x7d"

def Json.dumpList : List Json → String
  | [] => ""
  | [x] => Json.dump x
  | x :: rest => Json.dump x ++ ", " ++ Json.dumpList rest

def Json.dumpFields : List (String × Json) → String
  | [] => ""
  | [(k, v)] => jQuote k ++ ": " ++ Json.dump v
  | (k, v) :: rest => jQuote k ++ ": " ++ Json.dump v ++ ", " ++ Json.dumpFields rest

end

/-! ## MD5 (model of `hashlib.md5(...).hexdigest()`) -/

def u32 (n : Nat) : Nat := n % 4294967296

def u32not (x : Nat) : Nat := Nat.xor x 4294967295

def rotl32 (x s : Nat) : Nat := u32 (Nat.lor (x <<< s) (x >>> (32 - s)))

def md5K : List Nat := [3614090360, 3905402710, 606105819, 3250441966, 4118548399, 1200080426, 2821735955, 4249261313, 1770035416, 2336552879, 4294925233, 2304563134, 1804603682, 4254626195, 2792965006, 1236535329, 4129170786, 3225465664, 643717713, 3921069994, 3593408605, 38016083, 3634488961, 3889429448, 568446438, 3275163606, 4107603335, 1163531501, 2850285829, 4243563512, 1735328473, 2368359562, 4294588738, 2272392833, 1839030562, 4259657740, 2763975236, 1272893353, 4139469664, 3200236656, 681279174, 3936430074, 3572445317, 76029189, 3654602809, 3873151461, 530742520, 3299628645, 4096336452, 1126891415, 2878612391, 4237533241, 1700485571, 2399980690, 4293915773, 2240044497, 1873313359, 4264355552, 2734768916, 1309151649, 4149444226, 3174756917, 718787259, 3951481745]

def md5S : List Nat := [7, 12, 17, 22, 7, 12, 17, 22, 7, 12, 17, 22, 7, 12, 17, 22, 5, 9, 14, 20, 5, 9, 14, 20, 5, 9, 14, 20, 5, 9, 14, 20, 4, 11, 16, 23, 4, 11, 16, 23, 4, 11, 16, 23, 4, 11, 16, 23, 6, 10, 15, 21, 6, 10, 15, 21, 6, 10, 15, 21, 6, 10, 15, 21]

def chunkWords : List Nat → List Nat
  | b0 :: b1 :: b2 :: b3 :: rest => (b0 + 256 * b1 + 65536 * b2 + 16777216 * b3) :: chunkWords rest
  | _ => []

def md5F (i b c d : Nat) : Nat :=
  if i < 16 then Nat.lor (Nat.land b c) (Nat.land (u32not b) d)
  else if i < 32 then Nat.lor (Nat.land d b) (Nat.land (u32not d) c)
  else if i < 48 then Nat.xor b (Nat.xor c d)
  else Nat.xor c (Nat.lor b (u32not d))

def md5G (i : Nat) : Nat :=
  if i < 16 then i
  else if i < 32 then (5 * i + 1) % 16
  else if i < 48 then (3 * i + 5) % 16
  else (7 * i) % 16

def md5Round (m : List Nat) (i : Nat) : Nat × Nat × Nat × Nat → Nat × Nat × Nat × Nat
  | (a, b, c, d) =>
    let f := u32 (md5F i b c d + a + md5K.getD i 0 + m.getD (md5G i) 0)
    (d, u32 (b + rotl32 f (md5S.getD i 0)), b, c)

def md5Block (st : Nat × Nat × Nat × Nat) (m : List Nat) : Nat × Nat × Nat × Nat :=
  let r := (List.range 64).foldl (fun s i => md5Round m i s) st
  (u32 (st.1 + r.1), u32 (st.2.1 + r.2.1), u32 (st.2.2.1 + r.2.2.1), u32 (st.2.2.2 + r.2.2.2))

def md5Chunks : Nat → Nat × Nat × Nat × Nat → List Nat → Nat × Nat × Nat × Nat
  | 0, st, _ => st
  | _, st, [] => st
  | fuel + 1, st, l => md5Chunks fuel (md5Block st (chunkWords (l.take 64))) (l.drop 64)

def md5Pad (msg : List Nat) : List Nat :=
  let len := msg.length
  let z := (119 - len % 64) % 64
  let bitLen := 8 * len % 18446744073709551616
  msg ++ [128] ++ List.replicate z 0 ++
    [bitLen % 256, bitLen / 256 % 256, bitLen / 65536 % 256, bitLen / 16777216 % 256,
     bitLen / 4294967296 % 256, bitLen / 1099511627776 % 256,
     bitLen / 281474976710656 % 256, bitLen / 72057594037927936 % 256]

def byteHex (b : Nat) : List Char := [hexDigit (b / 16), hexDigit (b % 16)]

def wordHexLE (w : Nat) : List Char :=
  byteHex (w % 256) ++ byteHex (w / 256 % 256) ++ byteHex (w / 65536 % 256) ++ byteHex (w / 16777216 % 256)

def md5Hex (msg : List Nat) : String :=
  let padded := md5Pad msg
  let r := md5Chunks (padded.length + 1) (1732584193, 4023233417, 2562383102, 271733878) padded
  String.mk (wordHexLE r.1 ++ wordHexLE r.2.1 ++ wordHexLE r.2.2.1 ++ wordHexLE r.2.2.2)

/-- Bytes of a file's text (the model's alphabet treats each character as
one byte, matching the ASCII payloads handled in the tests). -/
def strBytes (s : String) : List Nat := s.data.map Char.toNat

/-! ## The `diff -y --suppress-common-lines <f1> <f2> | grep '^' | wc -l`
pipeline.

GNU diff computes a longest-common-subsequence alignment of the two line
sequences; in side-by-side mode each hunk of `d` deleted and `a` added
lines prints `max d a` rows (the first `min d a` of them as paired
changes), and `--suppress-common-lines` hides matched rows.  `diffBest`
computes, lexicographically, (greatest number of matched lines, fewest
printed rows for that matching): for every pair of line lists this is the
row count of the alignment diff reports. -/

def best2 (a b : Nat × Nat) : Nat × Nat :=
  if b.1 < a.1 ∨ (a.1 = b.1 ∧ a.2 ≤ b.2) then a else b

def diffRow (prev : List String → Nat × Nat) (x : String) : List String → Nat × Nat
  | [] => ((prev []).1, (prev []).2 + 1)
  | y :: ys =>
    let m := prev ys
    let d := prev (y :: ys)
    let i := diffRow prev x ys
    let base := best2 (m.1, m.2 + 1) (best2 (d.1, d.2 + 1) (i.1, i.2 + 1))
    if x = y then best2 (m.1 + 1, m.2) base else base

def diffBest : List String → List String → Nat × Nat
  | [], ys => (0, ys.length)
  | x :: xs, ys => diffRow (diffBest xs) x ys

/-- Number of difference rows reported by the side-by-side diff pipeline. -/
def diffCount (xs ys : List String) : Nat := (diffBest xs ys).2

def dedupStr : List String → List String
  | [] => []
  | x :: rest => if listContainsStr rest x then dedupStr rest else x :: dedupStr rest

/-- Modelled from the spec: "count lines present in one file but not the
other (symmetric difference of line sets, not a positional diff)" — the
size of the symmetric difference of the two files' sets of lines.  This
is the spec's description of the metric, stated for comparison with the
`diffCount` the code actually computes. -/
def specSymmDiffLines (xs ys : List String) : Nat :=
  (dedupStr (xs.filter (fun l => !listContainsStr ys l))).length +
  (dedupStr (ys.filter (fun l => !listContainsStr xs l))).length

/-! ## `DataFile` / `VcfDataFile`

The class hierarchy (`DataFile` with the `VcfDataFile` subclass overriding
`_assert_contents_equal` and `_diff`) is modelled by a `dtype` tag with
dispatch on it.  `http_headers` / `proxies` only decorate the download
request; the model network returns a body per URL directly. -/

inductive DType where
  | default : DType
  | vcf : DType
deriving DecidableEq

/-- The `_path` attribute.  When neither `path` nor `url` is given,
`DataFile.__init__` stores the raw `(fd, name)` tuple returned by
`tempfile.mkstemp` (it does not select element `[1]`); `fdPair` records
that state, on which `os.path.exists` later raises `TypeError`. -/
inductive PathRef where
  | str (p : String) : PathRef
  | fdPair (name : String) : PathRef
deriving DecidableEq

structure DataFile where
  dtype : DType
  url : Option String
  contents : Option String
  allowedDiffLines : Nat
  pathRef : PathRef
deriving DecidableEq

/-- Model of `DataFile.__init__` (the path-computation part). -/
def mkDataFile (dtype : DType) (path url contents : Option String) (localDir : String)
    (allowedDiffLines : Nat) (w : World) : Except PyErr (DataFile × World) :=
  if otruthy path then
    let p0 := path.getD ("")
    let p := if isAbsPath p0 then p0 else pyAbspath w.cwd (joinPath localDir p0)
    .ok (⟨dtype, url, contents, allowedDiffLines, .str p⟩, w)
  else if otruthy url then
    let u := url.getD ("")
    -- url.rsplit("/", 1)[1] raises IndexError when the url has no slash
    if u.data.any (fun c => decide (c = '/')) then
      let filename := String.mk (u.data.reverse.takeWhile (fun c => decide (¬(c = '/')))).reverse
      .ok (⟨dtype, url, contents, allowedDiffLines,
            .str (pyAbspath w.cwd (joinPath localDir filename))⟩, w)
    else .error .indexError
  else
    let p := mkTempFile w localDir
    .ok (⟨dtype, url, contents, allowedDiffLines, .fdPair p.1⟩, p.2)

/-- Model of `DataFile._persist`. -/
def persistFile (df : DataFile) (p : String) (w : World) : Except PyErr World :=
  if !(otruthy df.url || otruthy df.contents) then .error .valueError
  else
    let parent := dirName p
    let w1 := if pathExists w parent then w else makeDirs w parent
    if otruthy df.url then
      match alookup w1.net (df.url.getD ("")) with
      | none => .error .urlError
      | some body => .ok (writeFileW w1 p body)
    else .ok (writeFileW w1 p (df.contents.getD ("")))

/-- Model of the `DataFile.path` property: persist on first access if the
file is absent, then return `_path`. -/
def resolvePath (df : DataFile) (w : World) : Except PyErr (String × World) :=
  match df.pathRef with
  | .fdPair _ => .error .typeError  -- os.path.exists applied to the (fd, name) tuple
  | .str p =>
    if pathExists w p then .ok (p, w)
    else
      match persistFile df p w with
      | .ok w' => .ok (p, w')
      | .error e => .error e

/-- The `diff ... | grep | wc -l` pipeline on two paths.  A missing file
makes `diff` print only to stderr, so `wc -l` reports 0. -/
def pyDiffLines (w : World) (f1 f2 : String) : Nat :=
  match fsGet w f1, fsGet w f2 with
  | some c1, some c2 => diffCount (splitNl c1) (splitNl c2)
  | _, _ => 0

/-- First five tab-delimited columns of a line (`cut -d$'\t' -f 1-5`);
a line without the delimiter passes through whole. -/
def joinTabChars : List (List Char) → List Char
  | [] => []
  | [f] => f
  | f :: rest => f ++ '\t' :: joinTabChars rest

def cutFields15 (l : String) : String :=
  String.mk (joinTabChars ((chSplit '\t' l.data).take 5))

/-- Lines fed to `diff` by `VcfDataFile._diff`: comment lines dropped
(`grep -vP '^#'`), each remaining line cut to its first five columns. -/
def vcfPrepLines (c : String) : List String :=
  ((splitNl c).filter (fun l => !strStartsWith l ("#"))).map cutFields15

/-- Content of the temporary comparison file written by the
`cat | grep | cut > cmp_file` pipeline (`cat` of a missing file is empty). -/
def vcfPrepContent (c : String) : String := joinNl (vcfPrepLines c)

/-- Class dispatch of `cls._diff` (`DataFile._diff` vs `VcfDataFile._diff`). -/
def classDiff : DType → World → String → String → Nat × World
  | .default, w, f1, f2 => (pyDiffLines w f1 f2, w)
  | .vcf, w, f1, f2 =>
    let t := mkdTemp w
    let cf1 := t.1 ++ "/file1"
    let cf2 := t.1 ++ "/file2"
    let w2 := writeFileW t.2 cf1 (vcfPrepContent ((fsGet t.2 f1).getD ("")))
    let w3 := writeFileW w2 cf2 (vcfPrepContent ((fsGet w2 f2).getD ("")))
    (pyDiffLines w3 cf1 cf2, rmTree w3 t.1)

/-- Model of `DataFile._diff_contents`.  `.gz` inputs are decompressed to a
scratch directory first; a compressed payload is modelled by the text it
decompresses to (`gunzip -c missing > tmp` leaves an empty file). -/
def diffContents (dt : DType) (w : World) (f1 f2 : String) (allowed : Nat) : Except PyErr World :=
  let r :=
    if strEndsWith f1 (".gz") then
      let t := mkdTemp w
      let t1 := t.1 ++ "/file1"
      let t2 := t.1 ++ "/file2"
      let w2 := writeFileW t.2 t1 ((fsGet t.2 f1).getD (""))
      let w3 := writeFileW w2 t2 ((fsGet w2 f2).getD (""))
      let d := classDiff dt w3 t1 t2
      (d.1, rmTree d.2 t.1)
    else classDiff dt w f1 f2
  if r.1 > allowed then .error (.diffMismatch r.1 allowed f1 f2) else .ok r.2

/-- Model of `DataFile._compare_hashes`. -/
def compareHashes (w : World) (f1 f2 : String) : Except PyErr World :=
  match fsGet w f1 with
  | none => .error .osError
  | some c1 =>
    match fsGet w f2 with
    | none => .error .osError
    | some c2 =>
      if md5Hex (strBytes c1) = md5Hex (strBytes c2) then .ok w
      else .error (.contentMismatch f1 f2)

/-- Class dispatch of `cls._assert_contents_equal`: the base class hashes
when the tolerance is zero, `VcfDataFile` always diffs. -/
def classAssertContentsEqual : DType → World → String → String → Nat → Except PyErr World
  | .vcf, w, f1, f2, allowed => diffContents .vcf w f1 f2 allowed
  | .default, w, f1, f2, allowed =>
    if allowed ≠ 0 then diffContents .default w f1 f2 allowed else compareHashes w f1 f2

/-- The `other` argument of `assert_contents_equal`: a `DataFile` or a raw
path string. -/
inductive OtherArg where
  | entry (df : DataFile) : OtherArg
  | path (p : String) : OtherArg

/-- The tail of `assert_contents_equal`: materialize `self`, then call the
class comparison `self._assert_contents_equal(self.path, other_path,
allowed_diff_lines)`. -/
def assertCEResolved (self : DataFile) (otherPath : String) (allowed : Nat) (w : World) :
    Except PyErr World :=
  match resolvePath self w with
  | .error e => .error e
  | .ok r => classAssertContentsEqual self.dtype r.2 r.1 otherPath allowed

/-- Model of `DataFile.assert_contents_equal` (the spec's `compare_to`):
a raw path keeps `self`'s tolerance; an entry is materialized first and
the max of the two tolerances is used; then dispatch per type. -/
def assertContentsEqual (self : DataFile) : OtherArg → World → Except PyErr World
  | .path p, w => assertCEResolved self p self.allowedDiffLines w
  | .entry o, w =>
    match resolvePath o w with
    | .error e => .error e
    | .ok r => assertCEResolved self r.1 (max self.allowedDiffLines o.allowedDiffLines) r.2

/-! ## `CromwellHarness.get_cromwell_outputs` -/

def isOutputsLine (l : String) : Bool := strStartsWith (pyLstrip l) "\"outputs\":"

/-- The line scan of `get_cromwell_outputs`: remembers the most recent
`\x7b` line whose successor is an `"outputs":` line, stops at the first
bare `\x7d` line once a start is set.  Examining the successor of a final
`\x7b` line reproduces Python's `lines[i+1]` `IndexError`. -/
def scanOutputs : List String → Nat → Option Nat → Except PyErr (Nat × Nat)
  | [], _, _ => .error .outputParse
  | l :: rest, i, st =>
    if l = "\x7b" then
      match rest with
      | [] => .error .indexError
      | nxt :: _ =>
        if isOutputsLine nxt then scanOutputs rest (i + 1) (some i)
        else scanOutputs rest (i + 1) st
    else if l = "\x7d" then
      match st with
      | some s => .ok (s, i)
      | none => scanOutputs rest (i + 1) none
    else scanOutputs rest (i + 1) st

/-- Parse `"\n".join(<line span>)` with `json.loads` and select the
`"outputs"` field of the resulting document. -/
def parseOutputsDoc (span : List String) : Except PyErr Json :=
  match jsonParse (joinWithNl span) with
  | none => .error .jsonDecodeError
  | some j =>
    match j with
    | .obj fields =>
      match alookup fields ("outputs") with
      | some v => .ok v
      | none => .error (.keyError ("outputs"))
    | _ => .error .typeError

/-- The slice `lines[start:(end + 1)]` handed to `json.loads`. -/
def sliceParse (lines : List String) (s e : Nat) : Except PyErr Json :=
  parseOutputsDoc ((lines.drop s).take (e + 1 - s))

/-- A start trigger of the scan: a `\x7b` line whose successor is an
`"outputs":` line. -/
def trigPair (a b : String) : Bool := decide (a = "\x7b") && isOutputsLine b

/-- No start trigger occurs among consecutive lines of the list. -/
def noTrig : List String → Bool
  | [] => true
  | a :: rest =>
    (match rest with
     | [] => true
     | b :: _ => !trigPair a b) && noTrig rest

/-- No start trigger occurs in a prefix of log lines, where `first` is the
line that immediately follows the prefix. -/
def preOk (first : String) : List String → Bool
  | [] => true
  | a :: rest =>
    (match rest with
     | [] => !trigPair a first
     | b :: _ => !trigPair a b) && preOk first rest

def getCromwellOutputsLines (lines : List String) : Except PyErr Json :=
  match scanOutputs lines 0 none with
  | .error e => .error e
  | .ok r => sliceParse lines r.1 r.2

/-- Model of `CromwellHarness.get_cromwell_outputs`. -/
def getCromwellOutputs (output : String) : Except PyErr Json :=
  getCromwellOutputsLines (pySplitlines output)

/-! ## `CromwellHarness.run_workflow`: inputs serialization and the
expected-outputs assertions -/

/-- A Python value appearing in the `inputs` / `expected` dictionaries:
a `DataFile` or a JSON-serializable literal. -/
inductive PyVal where
  | json (j : Json) : PyVal
  | file (df : DataFile) : PyVal

/-- One value of the inputs dict comprehension:
`value.path if isinstance(value, DataFile) else value`. -/
def serializeInput : PyVal → World → Except PyErr (Json × World)
  | .json j, w => .ok (j, w)
  | .file df, w =>
    match resolvePath df w with
    | .ok r => .ok (.str r.1, r.2)
    | .error e => .error e

/-- The flat `cromwell_inputs` mapping: key `"{workflow_name}.{key}"`,
value literal-or-resolved-path, in dict order. -/
def buildCromwellInputs (wfName : String) :
    List (String × PyVal) → World → Except PyErr (List (String × Json) × World)
  | [], w => .ok ([], w)
  | (k, v) :: rest, w =>
    match serializeInput v w with
    | .error e => .error e
    | .ok r =>
      match buildCromwellInputs wfName rest r.2 with
      | .error e => .error e
      | .ok r2 => .ok ((wfName ++ "." ++ k, r.1) :: r2.1, r2.2)

def writeInputsFile (wfName : String) (inputs : List (String × PyVal)) (f : String)
    (w : World) : Except PyErr (String × Json × Bool × World) :=
  match buildCromwellInputs wfName inputs w with
  | .error e => .error e
  | .ok r =>
    let j := Json.obj r.1
    .ok (f, j, true, writeFileW r.2 f (Json.dump j))

/-- Model of the inputs-file phase of `run_workflow`: reuse (deserialize)
a pre-existing inputs file, else write the freshly serialized mapping.
The returned `Json` is the `cromwell_inputs` value the function goes on to
log; the `Bool` is `write_inputs`. -/
def prepareInputsFile (wfName : String) (inputs : List (String × PyVal))
    (inputsFileArg : Option String) (w : World) : Except PyErr (String × Json × Bool × World) :=
  match inputsFileArg with
  | some f0 =>
    let f := pyAbspath w.cwd f0
    if pathExists w f then
      match fsGet w f with
      | none => .error .osError  -- the path names a directory
      | some content =>
        match jsonParse content with
        | none => .error .jsonDecodeError
        | some j => .ok (f, j, false, w)
    else
      let w1 := makeDirs w (dirName f)
      writeInputsFile wfName inputs f w1
  | none =>
    let p := mkTempFile0 w (".json")
    writeInputsFile wfName inputs p.1 p.2

/-- Model of the assertion loop at the end of `run_workflow`. -/
def checkExpected (wfName : String) :
    List (String × PyVal) → List (String × Json) → World → Except PyErr World
  | [], _, w => .ok w
  | (name, ev) :: rest, outputs, w =>
    let key := wfName ++ "." ++ name
    match alookup outputs key with
    | none => .error (.missingOutput key)
    | some out =>
      match ev with
      | .file df =>
        -- expected_value.assert_contents_equal(outputs[key]); a non-string
        -- output value reaches `other.path` and raises AttributeError
        match out with
        | .str p =>
          match assertContentsEqual df (.path p) w with
          | .ok w' => checkExpected wfName rest outputs w'
          | .error e => .error e
        | _ => .error .attributeError
      | .json j =>
        if Json.beq j out then checkExpected wfName rest outputs w
        else .error .assertionFailed

/-! ## `Data` (the catalog) -/

def dataTypeOf (s : String) : Option DType :=
  if s = "vcf" then some .vcf else if s = "default" then some .default else none

structure DataCat where
  dataDir : String
  values : List (String × PyVal)
  manifest : List (String × Json)

def fieldStrOpt (fields : List (String × Json)) (k : String) : Except PyErr (Option String) :=
  match alookup fields k with
  | none => .ok none
  | some (.str s) => .ok (some s)
  | some _ => .error .typeError

def fieldNatD (fields : List (String × Json)) (k : String) : Except PyErr Nat :=
  match alookup fields k with
  | none => .ok 0
  | some (.num n) => .ok n.toNat
  | some _ => .error .typeError

def knownFieldKeys : List String := ["path", "url", "contents", "allowed_diff_lines"]

/-- Model of `Data.__getitem__`.  Note `value.pop("type", "default")`
mutates the dict object stored in `self._data`, so realizing a
record-valued entry erases its `"type"` key from the manifest mapping. -/
def getData (name : String) (st : DataCat) (w : World) : Except PyErr (PyVal × DataCat × World) :=
  match alookup st.values name with
  | some v => .ok (v, st, w)
  | none =>
    match alookup st.manifest name with
    | none => .error (.unknownName name)
    | some mv =>
      match mv with
      | .obj fields =>
        let tname : Json := (alookup fields ("type")).getD (.str ("default"))
        let fields' := fields.filter (fun kv => decide (¬(kv.1 = "type")))
        let st1 : DataCat :=
          { st with manifest :=
              st.manifest.map (fun kv => if kv.1 = name then (kv.1, Json.obj fields') else kv) }
        match tname with
        | .str ts =>
          match dataTypeOf ts with
          | none => .error (.keyError ts)  -- DATA_TYPES[<unknown type>]
          | some dt =>
            -- data_file_class(local_dir=..., **value): an unexpected key in
            -- the record is an invalid keyword argument
            if fields'.all (fun kv => listContainsStr knownFieldKeys kv.1) then
              match fieldStrOpt fields' ("path") with
              | .error e => .error e
              | .ok path =>
                match fieldStrOpt fields' ("url") with
                | .error e => .error e
                | .ok url =>
                  match fieldStrOpt fields' ("contents") with
                  | .error e => .error e
                  | .ok contents =>
                    match fieldNatD fields' ("allowed_diff_lines") with
                    | .error e => .error e
                    | .ok allowed =>
                      match mkDataFile dt path url contents st.dataDir allowed w with
                      | .error e => .error e
                      | .ok r =>
                        .ok (.file r.1,
                             { st1 with values := (name, .file r.1) :: st1.values }, r.2)
            else .error .typeError
        | _ => .error .typeError  -- DATA_TYPES[<non-string key>]
      | prim => .ok (.json prim, { st with values := (name, .json prim) :: st.values }, w)

/-! ## `_test_dir` (the directory resolver) -/

def mkTempBranch (w : World) : String × Bool × World :=
  let d := mkdTemp w
  (d.1, true, d.2)

/-- Set-up half of the `_test_dir` context manager: returns the directory,
whether it must be cleaned up, and the updated world. -/
def testDirEnter (envar projectRoot : String) (env : List (String × String)) (w : World) :
    String × Bool × World :=
  match alookup env envar with
  | some t =>
    if t = "" then mkTempBranch w
    else
      let d := if isAbsPath t then t else pyAbspath w.cwd (joinPath projectRoot t)
      let w' := if pathExists w d then w else makeDirs w d
      (d, false, w')
  | none => mkTempBranch w

/-- The `finally` block of `_test_dir`. -/
def testDirExit (d : String) (cleanup : Bool) (w : World) : World :=
  if cleanup then rmTree w d else w

/-- The whole `with _test_dir(...) as d: body` scope; the body returns its
outcome (normal or exceptional) together with the world it produced, and
the `finally` cleanup runs in either case. -/
def withTestDir (envar projectRoot : String) (env : List (String × String))
    (body : String → World → Except PyErr Unit × World) (w : World) :
    Except PyErr Unit × World :=
  let e := testDirEnter envar projectRoot env w
  let r := body e.1 e.2.2
  (r.1, testDirExit e.1 e.2.1 r.2)

/-! ## Basic sanity theorems for the modelled primitives -/

theorem chSplit_ne_nil (sep : Char) (l : List Char) : chSplit sep l ≠ [] := by
  cases l with
  | nil => simp [chSplit]
  | cons c rest =>
    simp only [chSplit]
    cases h : chSplit sep rest with
    | nil => simp
    | cons p ps =>
      by_cases hc : c = sep <;> simp [hc]

mutual

theorem Json.beq_refl : ∀ (j : Json), Json.beq j j = true
  | .null => rfl
  | .bool b => by simp [Json.beq]
  | .num n => by simp [Json.beq]
  | .str s => by simp [Json.beq]
  | .arr xs => by simpa [Json.beq] using Json.beqList_refl xs
  | .obj xs => by simpa [Json.beq] using Json.beqFields_refl xs

theorem Json.beqList_refl : ∀ (xs : List Json), Json.beqList xs xs = true
  | [] => rfl
  | x :: xs => by simp [Json.beqList, Json.beq_refl x, Json.beqList_refl xs]

theorem Json.beqFields_refl : ∀ (xs : List (String × Json)), Json.beqFields xs xs = true
  | [] => rfl
  | (k, v) :: xs => by simp [Json.beqFields, Json.beq_refl v, Json.beqFields_refl xs]

end

set_option maxRecDepth 40000 in
theorem md5Hex_empty : md5Hex [] = "d41d8cd98f00b204e9800998ecf8427e" := by decide

set_option maxRecDepth 40000 in
theorem md5Hex_abc : md5Hex [97, 98, 99] = "900150983cd24fb0d6963f7d28e17f72" := by decide

/-! ## Lemmas about the diff row-count model -/

theorem best2_cases (a b : Nat × Nat) : best2 a b = a ∨ best2 a b = b := by
  unfold best2; split <;> simp

theorem best2_left (a b : Nat × Nat) (h : b.1 < a.1) : best2 a b = a := by
  unfold best2; rw [if_pos (Or.inl h)]

theorem best2_fst_le {k : Nat} (a b : Nat × Nat) (ha : a.1 ≤ k) (hb : b.1 ≤ k) :
    (best2 a b).1 ≤ k := by
  rcases best2_cases a b with h | h <;> rw [h] <;> assumption

theorem diffRow_nil (prev : List String → Nat × Nat) (x : String) :
    diffRow prev x [] = ((prev []).1, (prev []).2 + 1) := rfl

theorem diffRow_cons (prev : List String → Nat × Nat) (x y : String) (ys : List String) :
    diffRow prev x (y :: ys) =
      (if x = y then
        best2 ((prev ys).1 + 1, (prev ys).2)
          (best2 ((prev ys).1, (prev ys).2 + 1)
            (best2 ((prev (y :: ys)).1, (prev (y :: ys)).2 + 1)
              ((diffRow prev x ys).1, (diffRow prev x ys).2 + 1)))
      else
        best2 ((prev ys).1, (prev ys).2 + 1)
          (best2 ((prev (y :: ys)).1, (prev (y :: ys)).2 + 1)
            ((diffRow prev x ys).1, (diffRow prev x ys).2 + 1))) := rfl

theorem diffBest_nil (ys : List String) : diffBest [] ys = (0, ys.length) := rfl

theorem diffBest_cons (x : String) (xs ys : List String) :
    diffBest (x :: xs) ys = diffRow (diffBest xs) x ys := rfl

theorem diffRow_fst_le (prev : List String → Nat × Nat) (x : String) (n : Nat)
    (hp : ∀ ys, (prev ys).1 ≤ min n ys.length) :
    ∀ ys : List String, (diffRow prev x ys).1 ≤ min (n + 1) ys.length := by
  intro ys
  induction ys with
  | nil =>
    have := hp []
    rw [diffRow_nil]
    simp only [List.length_nil] at this ⊢
    omega
  | cons y ys ih =>
    have hm := hp ys
    have hd := hp (y :: ys)
    rw [diffRow_cons]
    simp only [List.length_cons] at hd ⊢
    split
    · apply best2_fst_le
      · simp only; omega
      · apply best2_fst_le
        · simp only; omega
        · apply best2_fst_le
          · simp only; omega
          · simp only; omega
    · apply best2_fst_le
      · simp only; omega
      · apply best2_fst_le
        · simp only; omega
        · simp only; omega

theorem diffBest_fst_le : ∀ xs ys : List String, (diffBest xs ys).1 ≤ min xs.length ys.length
  | [], ys => by simp [diffBest_nil]
  | x :: xs, ys => by
    rw [diffBest_cons]
    simpa using diffRow_fst_le (diffBest xs) x xs.length (fun ys' => diffBest_fst_le xs ys') ys

theorem diffBest_self : ∀ xs : List String, diffBest xs xs = (xs.length, 0)
  | [] => rfl
  | x :: xs => by
    have hm := diffBest_self xs
    rw [diffBest_cons, diffRow_cons, hm, if_pos rfl]
    simp only [List.length_cons]
    apply best2_left
    simp only
    apply Nat.lt_succ_of_le
    apply best2_fst_le
    · simp
    · apply best2_fst_le
      · have := diffBest_fst_le xs (x :: xs)
        simp only [List.length_cons] at this
        simp only
        omega
      · have := diffRow_fst_le (diffBest xs) x xs.length (fun ys' => diffBest_fst_le xs ys') xs
        simp only
        omega

theorem base_snd_pos (m d i : Nat × Nat) :
    0 < (best2 (m.1, m.2 + 1) (best2 (d.1, d.2 + 1) (i.1, i.2 + 1))).2 := by
  rcases best2_cases (m.1, m.2 + 1) (best2 (d.1, d.2 + 1) (i.1, i.2 + 1)) with h2 | h2
  · rw [h2]; exact Nat.succ_pos _
  · rw [h2]
    rcases best2_cases (d.1, d.2 + 1) (i.1, i.2 + 1) with h3 | h3 <;> rw [h3] <;>
      exact Nat.succ_pos _

theorem diffCount_eq_zero_iff : ∀ xs ys : List String, diffCount xs ys = 0 ↔ xs = ys
  | [], ys => by
    simp only [diffCount, diffBest_nil]
    constructor
    · intro h
      exact (List.length_eq_zero.mp h).symm
    · intro h
      rw [← h]
      rfl
  | x :: xs, [] => by
    simp only [diffCount, diffBest_cons, diffRow_nil]
    constructor
    · intro h
      exact absurd h (Nat.succ_ne_zero _)
    · intro h
      exact absurd h (List.cons_ne_nil x xs)
  | x :: xs, y :: ys => by
    constructor
    · intro h
      simp only [diffCount, diffBest_cons, diffRow_cons] at h
      split at h
      · rename_i hxy
        rcases best2_cases ((diffBest xs ys).1 + 1, (diffBest xs ys).2) _ with h2 | h2
        · rw [h2] at h
          simp only at h
          have hx : xs = ys := (diffCount_eq_zero_iff xs ys).mp h
          rw [hxy, hx]
        · rw [h2] at h
          have := base_snd_pos (diffBest xs ys) (diffBest xs (y :: ys)) (diffRow (diffBest xs) x ys)
          omega
      · have := base_snd_pos (diffBest xs ys) (diffBest xs (y :: ys)) (diffRow (diffBest xs) x ys)
        omega
    · intro h
      rw [diffCount, h, diffBest_self]

theorem diffCount_self (xs : List String) : diffCount xs xs = 0 := by
  rw [diffCount, diffBest_self]

theorem diffCount_pos_of_ne {xs ys : List String} (h : xs ≠ ys) : 0 < diffCount xs ys :=
  Nat.pos_of_ne_zero (fun h0 => h ((diffCount_eq_zero_iff xs ys).mp h0))

/-! ## Lemmas about line splitting and joining (the `cut`-pipeline
roundtrip used by the vcf comparison) -/

theorem chSplit_nil (sep : Char) : chSplit sep [] = [[]] := rfl

theorem chSplit_cons (sep c : Char) (rest : List Char) :
    chSplit sep (c :: rest) =
      match chSplit sep rest with
      | [] => [[c]]
      | p :: ps => if c = sep then [] :: p :: ps else (c :: p) :: ps := rfl

theorem chSplit_sep_not_mem (sep : Char) :
    ∀ l : List Char, ∀ p ∈ chSplit sep l, sep ∉ p := by
  intro l
  induction l with
  | nil =>
    intro p hp
    rw [chSplit_nil] at hp
    simp only [List.mem_singleton] at hp
    subst hp
    simp
  | cons c rest ih =>
    intro p hp
    rw [chSplit_cons] at hp
    cases hcs : chSplit sep rest with
    | nil => exact absurd hcs (chSplit_ne_nil sep rest)
    | cons q qs =>
      rw [hcs] at hp
      dsimp only at hp
      by_cases hc : c = sep
      · rw [if_pos hc] at hp
        rcases List.mem_cons.mp hp with h | h
        · subst h; simp
        · exact ih p (hcs ▸ h)
      · rw [if_neg hc] at hp
        rcases List.mem_cons.mp hp with h | h
        · subst h
          intro hmem
          rcases List.mem_cons.mp hmem with h2 | h2
          · exact hc h2.symm
          · exact ih q (hcs ▸ List.mem_cons_self q qs) h2
        · exact ih p (hcs ▸ List.mem_cons_of_mem q h)

theorem chSplit_mem_subset (sep : Char) :
    ∀ l : List Char, ∀ p ∈ chSplit sep l, ∀ c ∈ p, c ∈ l := by
  intro l
  induction l with
  | nil =>
    intro p hp c hc
    rw [chSplit_nil] at hp
    simp only [List.mem_singleton] at hp
    subst hp
    simp at hc
  | cons d rest ih =>
    intro p hp c hc
    rw [chSplit_cons] at hp
    cases hcs : chSplit sep rest with
    | nil => exact absurd hcs (chSplit_ne_nil sep rest)
    | cons q qs =>
      rw [hcs] at hp
      dsimp only at hp
      by_cases hd : d = sep
      · rw [if_pos hd] at hp
        rcases List.mem_cons.mp hp with h | h
        · subst h; simp at hc
        · exact List.mem_cons_of_mem d (ih p (hcs ▸ h) c hc)
      · rw [if_neg hd] at hp
        rcases List.mem_cons.mp hp with h | h
        · subst h
          rcases List.mem_cons.mp hc with h2 | h2
          · exact h2 ▸ List.mem_cons_self d rest
          · exact List.mem_cons_of_mem d (ih q (hcs ▸ List.mem_cons_self q qs) c h2)
        · exact List.mem_cons_of_mem d (ih p (hcs ▸ List.mem_cons_of_mem q h) c hc)

theorem chSplit_append (sep : Char) (t : List Char) :
    ∀ l : List Char, sep ∉ l → chSplit sep (l ++ sep :: t) = l :: chSplit sep t := by
  intro l
  induction l with
  | nil =>
    intro _
    rw [List.nil_append, chSplit_cons]
    cases hcs : chSplit sep t with
    | nil => exact absurd hcs (chSplit_ne_nil sep t)
    | cons q qs =>
      dsimp only
      rw [if_pos rfl]
  | cons c l ih =>
    intro hni
    have hc : c ≠ sep := fun h => hni (h ▸ List.mem_cons_self c l)
    rw [List.cons_append, chSplit_cons, ih (fun h => hni (List.mem_cons_of_mem c h))]
    dsimp only
    rw [if_neg hc]

theorem chSplit_joinNl :
    ∀ ls : List (List Char), (∀ l ∈ ls, '\n' ∉ l) →
      chSplit '\n' (joinNlChars ls) = ls ++ [[]] := by
  intro ls
  induction ls with
  | nil => intro _; rfl
  | cons l rest ih =>
    intro h
    simp only [joinNlChars]
    rw [chSplit_append '\n' (joinNlChars rest) l (h l (List.mem_cons_self l rest)),
        ih (fun q hq => h q (List.mem_cons_of_mem l hq))]
    simp

theorem stringMk_data (s : String) : String.mk s.data = s := rfl

theorem splitNl_joinNl (ls : List String) (h : ∀ l ∈ ls, '\n' ∉ l.data) :
    splitNl (joinNl ls) = ls := by
  unfold splitNl joinNl splitNlChars
  dsimp only
  rw [chSplit_joinNl (ls.map String.data)
        (by intro l hl
            rcases List.mem_map.mp hl with ⟨s, hs, rfl⟩
            exact h s hs)]
  rw [List.getLast?_concat, List.dropLast_concat, if_pos rfl, List.map_map]
  simp [Function.comp_def, stringMk_data]

theorem splitNl_mem_no_nl (s : String) : ∀ l ∈ splitNl s, '\n' ∉ l.data := by
  intro l hl hmem
  unfold splitNl splitNlChars at hl
  dsimp only at hl
  rcases List.mem_map.mp hl with ⟨p, hp, rfl⟩
  have hp' : p ∈ chSplit '\n' s.data := by
    split at hp
    · exact List.dropLast_subset _ hp
    · exact hp
  exact chSplit_sep_not_mem '\n' s.data p hp' hmem

theorem joinTabChars_mem :
    ∀ (parts : List (List Char)) (c : Char), c ∈ joinTabChars parts →
      c = '\t' ∨ ∃ p, p ∈ parts ∧ c ∈ p
  | [], c => by simp [joinTabChars]
  | [f], c => by
    intro h
    simp only [joinTabChars] at h
    exact Or.inr ⟨f, List.mem_singleton_self f, h⟩
  | f :: g :: rest, c => by
    intro h
    simp only [joinTabChars] at h
    rcases List.mem_append.mp h with h | h
    · exact Or.inr ⟨f, List.mem_cons_self f (g :: rest), h⟩
    · rcases List.mem_cons.mp h with h | h
      · exact Or.inl h
      · rcases joinTabChars_mem (g :: rest) c h with h | ⟨p, hp, hc⟩
        · exact Or.inl h
        · exact Or.inr ⟨p, List.mem_cons_of_mem f hp, hc⟩

theorem cutFields15_no_nl (l : String) (h : '\n' ∉ l.data) : '\n' ∉ (cutFields15 l).data := by
  intro hmem
  rcases joinTabChars_mem _ _ hmem with h1 | ⟨p, hp, hc⟩
  · exact absurd h1 (by decide)
  · exact h (chSplit_mem_subset '\t' l.data p (List.take_subset 5 _ hp) '\n' hc)

theorem vcfPrepLines_no_nl (c : String) : ∀ l ∈ vcfPrepLines c, '\n' ∉ l.data := by
  intro l hl
  rcases List.mem_map.mp hl with ⟨l0, hl0, rfl⟩
  exact cutFields15_no_nl l0 (splitNl_mem_no_nl c l0 (List.mem_of_mem_filter hl0))

/-- The `cat | grep | cut > cmp_file` pipeline followed by re-reading the
file yields exactly the prepared lines. -/
theorem splitNl_vcfPrepContent (c : String) : splitNl (vcfPrepContent c) = vcfPrepLines c :=
  splitNl_joinNl _ (vcfPrepLines_no_nl c)

/-! ## Small world lemmas -/

theorem otruthy_some_ne {c : String} (hc : c ≠ "") : otruthy (some c) = true := by
  have hd : c.data ≠ [] := fun h => hc (by rw [← stringMk_data c, h])
  unfold otruthy
  dsimp only
  cases hcd : c.data with
  | nil => exact absurd hcd hd
  | cons a l => rfl

theorem fsGet_writeFileW_self (w : World) (p c : String) :
    fsGet (writeFileW w p c) p = some c := by
  simp [fsGet, writeFileW, alookup]

theorem pathExists_writeFileW_self (w : World) (p c : String) :
    pathExists (writeFileW w p c) p = true := by
  simp [pathExists, fileExists, fsGet_writeFileW_self]

theorem writes_makeDirs (w : World) (p : String) : (makeDirs w p).writes = w.writes := rfl

theorem writes_writeFileW (w : World) (p c : String) :
    (writeFileW w p c).writes = w.writes + 1 := rfl

/-- Unfolding of the `path` property at a string-valued `_path`. -/
theorem resolvePath_str (df : DataFile) (p : String) (w : World) (hp : df.pathRef = .str p) :
    resolvePath df w =
      (if pathExists w p = true then .ok (p, w)
       else
         match persistFile df p w with
         | .ok w' => .ok (p, w')
         | .error e => .error e) := by
  unfold resolvePath
  rw [hp]

/-! ## Claim C4 -/

/-- Claim C4 (counterexample): an entry whose `contents` field is set to
the empty string, with no pre-existing file, does not return a path and
performs no write — `_persist` raises `ValueError`, because
`if not (self.url or self.contents)` treats `contents=""` as absent. -/
theorem c4_counterexample :
    DataFile.contents ⟨.default, none, some (""), 0, .str ("/f")⟩ = some ("") ∧
    resolvePath ⟨.default, none, some (""), 0, .str ("/f")⟩ ⟨[], [], [], "/", 0, 0⟩
      = .error .valueError :=
  ⟨rfl, rfl⟩

/-- Claim C4 (amended: `contents` must additionally be non-empty, since
the code's truthiness test treats an empty `contents` string as absent
and raises `ValueError` instead of materializing): for every entry with
non-empty contents, no url, and no file at the target path, the first
access of the `path` property returns the target path and performs
exactly one physical write, whose content is `contents`; a second access
returns the same path, changes nothing, and performs no further write. -/
theorem c4_idempotent_materialization (dt : DType) (k : Nat) (p c : String) (w : World)
    (hc : c ≠ "") (hex : pathExists w p = false) :
    ∃ w' : World,
      resolvePath ⟨dt, none, some c, k, .str p⟩ w = .ok (p, w') ∧
      w'.writes = w.writes + 1 ∧
      fsGet w' p = some c ∧
      resolvePath ⟨dt, none, some c, k, .str p⟩ w' = .ok (p, w') := by
  have htr : otruthy (some c) = true := otruthy_some_ne hc
  have hper : persistFile ⟨dt, none, some c, k, .str p⟩ p w
      = .ok (writeFileW (if pathExists w (dirName p) = true then w else makeDirs w (dirName p)) p c) := by
    unfold persistFile
    dsimp only
    rw [htr]
    rfl
  set w1 := if pathExists w (dirName p) = true then w else makeDirs w (dirName p) with hw1
  refine ⟨writeFileW w1 p c, ?_, ?_, fsGet_writeFileW_self w1 p c, ?_⟩
  · rw [resolvePath_str _ p w rfl, hex]
    rw [if_neg (by decide : ¬(false = true)), hper]
  · rw [writes_writeFileW, hw1]
    split <;> rfl
  · rw [resolvePath_str _ p (writeFileW w1 p c) rfl, pathExists_writeFileW_self,
        if_pos rfl]

/-- Claim C4 witness. -/
theorem c4_idempotent_materialization_witness :
    ∃ w' : World,
      resolvePath ⟨.default, none, some ("hi"), 0, .str ("/d/f")⟩ ⟨[], [], [], "/", 0, 0⟩
        = .ok ("/d/f", w') ∧
      w'.writes = 0 + 1 ∧
      fsGet w' ("/d/f") = some ("hi") ∧
      resolvePath ⟨.default, none, some ("hi"), 0, .str ("/d/f")⟩ w' = .ok ("/d/f", w') :=
  c4_idempotent_materialization .default 0 ("/d/f") "hi" ⟨[], [], [], "/", 0, 0⟩
    (by decide) (by decide)

/-! ## Claim C5 -/

/-- Claim C5: for an entry with no url and no contents available (absent
or empty, per the code's truthiness test) whose target path does not
exist, accessing `path` raises `ValueError` (the spec's
MaterializationError); conversely when the file already exists the access
returns the path with the world untouched — no fetch and no write. -/
theorem c5_materialization_error (df : DataFile) (p : String) (w : World)
    (hp : df.pathRef = .str p) :
    (otruthy df.url = false → otruthy df.contents = false → pathExists w p = false →
      resolvePath df w = .error .valueError)
    ∧ (pathExists w p = true → resolvePath df w = .ok (p, w)) := by
  constructor
  · intro hu hc hex
    have hper : persistFile df p w = .error .valueError := by
      unfold persistFile
      rw [hu, hc]
      rfl
    rw [resolvePath_str df p w hp, hex]
    rw [if_neg (by decide : ¬(false = true)), hper]
  · intro hex
    rw [resolvePath_str df p w hp, hex, if_pos rfl]

/-- Claim C5 witness. -/
theorem c5_materialization_error_witness :
    resolvePath ⟨.default, none, none, 0, .str ("/missing")⟩ ⟨[], [], [], "/", 0, 0⟩
        = .error .valueError ∧
    resolvePath ⟨.default, some ("http://h/f"), none, 0, .str ("/f")⟩
        ⟨[("/f", "x")], [], [], "/", 0, 0⟩
      = .ok ("/f", ⟨[("/f", "x")], [], [], "/", 0, 0⟩) :=
  ⟨(c5_materialization_error ⟨.default, none, none, 0, .str ("/missing")⟩ "/missing"
      ⟨[], [], [], "/", 0, 0⟩ rfl).1 rfl rfl (by decide),
   (c5_materialization_error ⟨.default, some ("http://h/f"), none, 0, .str ("/f")⟩ "/f"
      ⟨[("/f", "x")], [], [], "/", 0, 0⟩ rfl).2 (by decide)⟩

/-! ## Lemmas about the comparison chain -/

theorem pathExists_of_fsGet {w : World} {p c : String} (h : fsGet w p = some c) :
    pathExists w p = true := by
  simp [pathExists, fileExists, h]

theorem strData_append (a b : String) : (a ++ b).data = a.data ++ b.data := rfl

theorem listStartsWith_append (pat rest : List Char) :
    listStartsWith pat (pat ++ rest) = true := by
  induction pat with
  | nil => rfl
  | cons c ps ih => simp [listStartsWith, ih]

theorem ne_of_not_startsWith {p pre : String} (h : strStartsWith p pre = false)
    (mid suffix : String) : p ≠ (pre ++ mid) ++ suffix := by
  intro he
  have hsw : strStartsWith ((pre ++ mid) ++ suffix) pre = true := by
    unfold strStartsWith
    rw [strData_append, strData_append, List.append_assoc]
    exact listStartsWith_append pre.data _
  rw [he, hsw] at h
  exact Bool.noConfusion h

theorem strAppend_right_ne (a : String) {s t : String} (h : s ≠ t) : a ++ s ≠ a ++ t := by
  intro he
  apply h
  have hd : a.data ++ s.data = a.data ++ t.data := by
    rw [← strData_append, ← strData_append, he]
  have := List.append_cancel_left hd
  rw [← stringMk_data s, ← stringMk_data t, this]

theorem alookup_filter_ne {α : Type} (p q : String) (hne : q ≠ p) :
    ∀ files : List (String × α),
      alookup (files.filter (fun kv => decide (¬(kv.1 = p)))) q = alookup files q := by
  intro files
  induction files with
  | nil => rfl
  | cons kv rest ih =>
    obtain ⟨k, v⟩ := kv
    by_cases hk : k = p
    · subst hk
      rw [List.filter_cons, if_neg (by simp)]
      rw [ih]
      simp only [alookup, if_neg (fun hh : k = q => hne hh.symm)]
    · rw [List.filter_cons, if_pos (by simp [hk])]
      simp only [alookup, ih]

theorem fsGet_writeFileW_other {q p : String} (w : World) (c : String) (hne : q ≠ p) :
    fsGet (writeFileW w p c) q = fsGet w q := by
  unfold fsGet writeFileW
  simp only [alookup, if_neg (fun hh : p = q => hne hh.symm)]
  exact alookup_filter_ne p q hne w.files

theorem fsGet_mkdTemp (w : World) (q : String) : fsGet (mkdTemp w).2 q = fsGet w q := rfl

theorem pyDiffLines_eq {w : World} {f1 f2 a b : String}
    (ha : fsGet w f1 = some a) (hb : fsGet w f2 = some b) :
    pyDiffLines w f1 f2 = diffCount (splitNl a) (splitNl b) := by
  unfold pyDiffLines
  rw [ha, hb]

theorem assertContentsEqual_entries (self o : DataFile) (p1 p2 : String) (w : World)
    (h1 : self.pathRef = .str p1) (h2 : o.pathRef = .str p2)
    (he1 : pathExists w p1 = true) (he2 : pathExists w p2 = true) :
    assertContentsEqual self (.entry o) w
      = classAssertContentsEqual self.dtype w p1 p2
          (max self.allowedDiffLines o.allowedDiffLines) := by
  have hro : resolvePath o w = .ok (p2, w) := by
    rw [resolvePath_str o p2 w h2, he2, if_pos rfl]
  have hrs : resolvePath self w = .ok (p1, w) := by
    rw [resolvePath_str self p1 w h1, he1, if_pos rfl]
  simp only [assertContentsEqual, hro, assertCEResolved, hrs]

/-- Unfolding of `_assert_contents_equal` for the base class at a positive
tolerance and a non-gz first file: the pure diff threshold test. -/
theorem classAssertCE_default_pos (w : World) (f1 f2 : String) (k : Nat) (hk : k ≠ 0)
    (hgz : strEndsWith f1 (".gz") = false) :
    classAssertContentsEqual .default w f1 f2 k =
      (if pyDiffLines w f1 f2 > k then
        .error (.diffMismatch (pyDiffLines w f1 f2) k f1 f2)
       else .ok w) := by
  show (if k ≠ 0 then diffContents .default w f1 f2 k else compareHashes w f1 f2) = _
  rw [if_pos hk]
  unfold diffContents
  rw [hgz]
  rw [if_neg (by decide : ¬(false = true))]
  rfl

/-- Unfolding of `_assert_contents_equal` for the base class at zero
tolerance: the MD5 comparison. -/
theorem classAssertCE_default_zero (w : World) (f1 f2 c1 c2 : String)
    (hf1 : fsGet w f1 = some c1) (hf2 : fsGet w f2 = some c2) :
    classAssertContentsEqual .default w f1 f2 0 =
      (if md5Hex (strBytes c1) = md5Hex (strBytes c2) then .ok w
       else .error (.contentMismatch f1 f2)) := by
  show (if (0 : Nat) ≠ 0 then diffContents .default w f1 f2 0 else compareHashes w f1 f2) = _
  rw [if_neg (by omega : ¬((0 : Nat) ≠ 0))]
  unfold compareHashes
  rw [hf1, hf2]

/-- The row count computed by `VcfDataFile._diff` through its temporary
comparison files equals the diff of the prepared (comment-stripped,
column-cut) lines.  The `f2` file must not itself live where the scratch
files are created (in the code `mkdtemp` guarantees freshness). -/
theorem classDiff_vcf_fst (w : World) (f1 f2 c1 c2 : String)
    (hf1 : fsGet w f1 = some c1) (hf2 : fsGet w f2 = some c2)
    (htmp : strStartsWith f2 ("/tmp/tmp") = false) :
    (classDiff .vcf w f1 f2).1 = diffCount (vcfPrepLines c1) (vcfPrepLines c2) := by
  have hne2 : f2 ≠ ("/tmp/tmp" ++ natStr w.tmpCounter) ++ "/file1" :=
    ne_of_not_startsWith htmp (natStr w.tmpCounter) "/file1"
  have hne12 : (("/tmp/tmp" ++ natStr w.tmpCounter) ++ "/file1" : String)
      ≠ ("/tmp/tmp" ++ natStr w.tmpCounter) ++ "/file2" :=
    strAppend_right_ne _ (by decide)
  unfold classDiff
  dsimp only
  rw [show (mkdTemp w).1 = "/tmp/tmp" ++ natStr w.tmpCounter from rfl]
  rw [pyDiffLines_eq (a := vcfPrepContent c1) (b := vcfPrepContent c2) ?_ ?_,
      splitNl_vcfPrepContent, splitNl_vcfPrepContent]
  · rw [fsGet_writeFileW_other _ _ hne12, fsGet_writeFileW_self]
    rw [show fsGet (mkdTemp w).2 f1 = some c1 from hf1]
    rfl
  · rw [fsGet_writeFileW_self]
    rw [fsGet_writeFileW_other _ _ hne2]
    rw [show fsGet (mkdTemp w).2 f2 = some c2 from hf2]
    rfl

/-- Unfolding of `_diff_contents` for a (non-gz) vcf comparison. -/
theorem diffContents_vcf_eq (w : World) (f1 f2 c1 c2 : String) (k : Nat)
    (hf1 : fsGet w f1 = some c1) (hf2 : fsGet w f2 = some c2)
    (htmp : strStartsWith f2 ("/tmp/tmp") = false)
    (hgz : strEndsWith f1 (".gz") = false) :
    diffContents .vcf w f1 f2 k =
      (if diffCount (vcfPrepLines c1) (vcfPrepLines c2) > k then
        .error (.diffMismatch (diffCount (vcfPrepLines c1) (vcfPrepLines c2)) k f1 f2)
       else .ok (classDiff .vcf w f1 f2).2) := by
  unfold diffContents
  rw [hgz]
  rw [if_neg (by decide : ¬(false = true))]
  dsimp only
  rw [classDiff_vcf_fst w f1 f2 c1 c2 hf1 hf2 htmp]

/-! ## Claim C1 -/

/-- Claim C1 (counterexample): the claim describes the tolerant comparison
as counting the symmetric difference of the two files' line sets.  For the
files "a\nb\n" and "b\na\n" that count is 0, so at tolerance 1 the claim
predicts a pass; the code shells out to `diff`, a positional (LCS)
line diff, which reports 2 difference rows, and the comparison raises. -/
theorem c1_counterexample :
    specSymmDiffLines (splitNl ("a\nb\n")) (splitNl ("b\na\n")) = 0 ∧
    assertContentsEqual ⟨.default, none, none, 1, .str ("/f1")⟩
        (.entry ⟨.default, none, none, 0, .str ("/f2")⟩)
        ⟨[("/f1", "a\nb\n"), ("/f2", "b\na\n")], [], [], "/", 0, 0⟩
      = .error (.diffMismatch 2 1 ("/f1") ("/f2")) :=
  ⟨rfl, rfl⟩

/-- Claim C1 (amended): for two non-gz entries of the default type with
positive effective tolerance `k` (max over both sides), the comparison
counts the rows reported by the positional side-by-side diff
(`diffCount`: a changed pair is one row, an unpaired insertion or
deletion is one row) — not the symmetric difference of line sets — and
passes iff that count is at most `k`, raising the diff `AssertionError`
naming count, threshold and both paths otherwise.  For files whose diff
row count is exactly `k`, the comparison at tolerance `k` passes and at
tolerance `k - 1 ≥ 1` fails. -/
theorem c1_diff_threshold (self o : DataFile) (p1 p2 c1 c2 : String) (k : Nat) (w : World)
    (hdt : self.dtype = .default)
    (h1 : self.pathRef = .str p1) (h2 : o.pathRef = .str p2)
    (hf1 : fsGet w p1 = some c1) (hf2 : fsGet w p2 = some c2)
    (hk : max self.allowedDiffLines o.allowedDiffLines = k) (hk0 : k ≠ 0)
    (hgz1 : strEndsWith p1 (".gz") = false) (hgz2 : strEndsWith p2 (".gz") = false) :
    (assertContentsEqual self (.entry o) w =
       if diffCount (splitNl c1) (splitNl c2) > k then
         .error (.diffMismatch (diffCount (splitNl c1) (splitNl c2)) k p1 p2)
       else .ok w)
    ∧ (diffCount (splitNl c1) (splitNl c2) = k →
        assertContentsEqual self (.entry o) w = .ok w)
    ∧ (diffCount (splitNl c1) (splitNl c2) = k → 2 ≤ k →
        classAssertContentsEqual .default w p1 p2 (k - 1)
          = .error (.diffMismatch k (k - 1) p1 p2)) := by
  have hmain := assertContentsEqual_entries self o p1 p2 w h1 h2
    (pathExists_of_fsGet hf1) (pathExists_of_fsGet hf2)
  rw [hdt, hk] at hmain
  have hpd : pyDiffLines w p1 p2 = diffCount (splitNl c1) (splitNl c2) :=
    pyDiffLines_eq hf1 hf2
  refine ⟨?_, ?_, ?_⟩
  · rw [hmain, classAssertCE_default_pos w p1 p2 k hk0 hgz1, hpd]
  · intro he
    rw [hmain, classAssertCE_default_pos w p1 p2 k hk0 hgz1, hpd, he,
        if_neg (by omega : ¬(k > k))]
  · intro he h2k
    rw [classAssertCE_default_pos w p1 p2 (k - 1) (by omega) hgz1, hpd, he,
        if_pos (by omega : k > k - 1)]

/-- Claim C1 witness: files whose positional diff reports exactly 2 rows
pass at tolerance 2 and fail at tolerance 1. -/
theorem c1_diff_threshold_witness :
    assertContentsEqual ⟨.default, none, none, 2, .str ("/f1")⟩
        (.entry ⟨.default, none, none, 0, .str ("/f2")⟩)
        ⟨[("/f1", "x\ny\n"), ("/f2", "u\nv\n")], [], [], "/", 0, 0⟩ = .ok
        ⟨[("/f1", "x\ny\n"), ("/f2", "u\nv\n")], [], [], "/", 0, 0⟩ ∧
    classAssertContentsEqual .default
        ⟨[("/f1", "x\ny\n"), ("/f2", "u\nv\n")], [], [], "/", 0, 0⟩ "/f1" "/f2" 1
      = .error (.diffMismatch 2 1 ("/f1") ("/f2")) := by
  have h := c1_diff_threshold ⟨.default, none, none, 2, .str ("/f1")⟩
    ⟨.default, none, none, 0, .str ("/f2")⟩ "/f1" "/f2" "x\ny\n" "u\nv\n" 2
    ⟨[("/f1", "x\ny\n"), ("/f2", "u\nv\n")], [], [], "/", 0, 0⟩
    rfl rfl rfl rfl rfl rfl (by decide) rfl rfl
  exact ⟨h.2.1 (by decide), h.2.2 (by decide) (by decide)⟩

/-! ## Claim C2 -/

/-- Claim C2 (counterexample): for vcf-typed entries the dispatch is not
the content-hash comparison even at zero effective tolerance —
`VcfDataFile._assert_contents_equal` always routes through the
column-restricted diff.  Two vcf entries whose byte contents differ (in
column 6), both with `allowed_diff_lines = 0`, compare without raising. -/
theorem c2_counterexample :
    DataFile.allowedDiffLines ⟨.vcf, none, none, 0, .str ("/f1.vcf")⟩ = 0 ∧
    ("1\tA\tB\tC\tD\tx\n" : String) ≠ "1\tA\tB\tC\tD\ty\n" ∧
    (assertContentsEqual ⟨.vcf, none, none, 0, .str ("/f1.vcf")⟩
        (.entry ⟨.vcf, none, none, 0, .str ("/f2.vcf")⟩)
        ⟨[("/f1.vcf", "1\tA\tB\tC\tD\tx\n"), ("/f2.vcf", "1\tA\tB\tC\tD\ty\n")],
         [], [], "/", 0, 0⟩).isOk = true :=
  ⟨rfl, by decide, rfl⟩

/-- Claim C2 (amended: restricted to default-typed entries, since the vcf
subclass overrides the dispatch; and stated in terms of the MD5 digests
the code actually compares): for two default-typed entries with
`allowed_diff_lines = 0` on both sides whose files exist, `compare_to`
compares the MD5 hex digests of the full byte contents — it never raises
when the bytes are identical, and raises the `AssertionError` naming both
paths exactly when the digests differ. -/
theorem c2_hash_dispatch (self o : DataFile) (p1 p2 c1 c2 : String) (w : World)
    (hdt : self.dtype = .default)
    (h1 : self.pathRef = .str p1) (h2 : o.pathRef = .str p2)
    (hf1 : fsGet w p1 = some c1) (hf2 : fsGet w p2 = some c2)
    (ha1 : self.allowedDiffLines = 0) (ha2 : o.allowedDiffLines = 0) :
    (assertContentsEqual self (.entry o) w
      = if md5Hex (strBytes c1) = md5Hex (strBytes c2) then .ok w
        else .error (.contentMismatch p1 p2))
    ∧ (c1 = c2 → assertContentsEqual self (.entry o) w = .ok w) := by
  have hmain := assertContentsEqual_entries self o p1 p2 w h1 h2
    (pathExists_of_fsGet hf1) (pathExists_of_fsGet hf2)
  rw [hdt, ha1, ha2] at hmain
  simp only [Nat.max_self] at hmain
  have hcls := classAssertCE_default_zero w p1 p2 c1 c2 hf1 hf2
  constructor
  · rw [hmain, hcls]
  · intro hcc
    rw [hmain, hcls, hcc, if_pos rfl]

/-- Claim C2 witness. -/
theorem c2_hash_dispatch_witness :
    assertContentsEqual ⟨.default, none, none, 0, .str ("/g1")⟩
        (.entry ⟨.default, none, none, 0, .str ("/g2")⟩)
        ⟨[("/g1", "hello\n"), ("/g2", "hello\n")], [], [], "/", 0, 0⟩
      = .ok ⟨[("/g1", "hello\n"), ("/g2", "hello\n")], [], [], "/", 0, 0⟩ :=
  (c2_hash_dispatch ⟨.default, none, none, 0, .str ("/g1")⟩
    ⟨.default, none, none, 0, .str ("/g2")⟩ "/g1" "/g2" "hello\n" "hello\n"
    ⟨[("/g1", "hello\n"), ("/g2", "hello\n")], [], [], "/", 0, 0⟩
    rfl rfl rfl rfl rfl rfl rfl).2 rfl

/-! ## Claim C6 -/

/-- Claim C6: the vcf comparison strips `#`-comment lines and compares
only the first five tab-delimited columns of each remaining line under
the diff row-count rule.  If the prepared lines of the two files agree
(they may differ arbitrarily in columns 6+ and in comment lines), the
comparison succeeds for every effective tolerance, including 0; if the
prepared lines differ, the difference is counted — the row count is
positive and at zero tolerance the comparison raises the diff error
naming that count and both paths. -/
theorem c6_vcf_columns (self o : DataFile) (p1 p2 c1 c2 : String) (w : World)
    (hdt : self.dtype = .vcf)
    (h1 : self.pathRef = .str p1) (h2 : o.pathRef = .str p2)
    (hf1 : fsGet w p1 = some c1) (hf2 : fsGet w p2 = some c2)
    (htmp : strStartsWith p2 ("/tmp/tmp") = false)
    (hgz1 : strEndsWith p1 (".gz") = false) :
    (vcfPrepLines c1 = vcfPrepLines c2 →
      (assertContentsEqual self (.entry o) w).isOk = true)
    ∧ (vcfPrepLines c1 ≠ vcfPrepLines c2 → self.allowedDiffLines = 0 →
        o.allowedDiffLines = 0 →
        0 < diffCount (vcfPrepLines c1) (vcfPrepLines c2) ∧
        assertContentsEqual self (.entry o) w
          = .error (.diffMismatch (diffCount (vcfPrepLines c1) (vcfPrepLines c2)) 0 p1 p2)) := by
  have hmain := assertContentsEqual_entries self o p1 p2 w h1 h2
    (pathExists_of_fsGet hf1) (pathExists_of_fsGet hf2)
  rw [hdt] at hmain
  have hvcf : classAssertContentsEqual .vcf w p1 p2
      (max self.allowedDiffLines o.allowedDiffLines)
      = diffContents .vcf w p1 p2 (max self.allowedDiffLines o.allowedDiffLines) := rfl
  have hdc := diffContents_vcf_eq w p1 p2 c1 c2
    (max self.allowedDiffLines o.allowedDiffLines) hf1 hf2 htmp hgz1
  constructor
  · intro heq
    rw [hmain, hvcf, hdc, heq, diffCount_self,
        if_neg (by omega : ¬(0 > max self.allowedDiffLines o.allowedDiffLines))]
    rfl
  · intro hne ha1 ha2
    have hpos := diffCount_pos_of_ne hne
    refine ⟨hpos, ?_⟩
    rw [hmain, ha1, ha2]
    simp only [Nat.max_self]
    have hdc0 := diffContents_vcf_eq w p1 p2 c1 c2 0 hf1 hf2 htmp hgz1
    rw [show classAssertContentsEqual .vcf w p1 p2 0 = diffContents .vcf w p1 p2 0 from rfl,
        hdc0, if_pos (by omega : diffCount (vcfPrepLines c1) (vcfPrepLines c2) > 0)]

/-- Claim C6 witness: files agreeing in columns 1-5 (differing in column 6
and in comment lines) compare clean at tolerance 0; a column-3 difference
is counted and fails at tolerance 0. -/
theorem c6_vcf_columns_witness :
    (assertContentsEqual ⟨.vcf, none, none, 0, .str ("/a.vcf")⟩
        (.entry ⟨.vcf, none, none, 0, .str ("/b.vcf")⟩)
        ⟨[("/a.vcf", "#h\n1\t2\t3\t4\t5\t6\n"), ("/b.vcf", "#g\n1\t2\t3\t4\t5\tSEVEN\n")],
         [], [], "/", 0, 0⟩).isOk = true ∧
    (0 < diffCount (vcfPrepLines ("1\t2\t3\t4\t5\tx\n")) (vcfPrepLines ("1\t2\tX\t4\t5\tx\n")) ∧
      assertContentsEqual ⟨.vcf, none, none, 0, .str ("/a.vcf")⟩
          (.entry ⟨.vcf, none, none, 0, .str ("/b.vcf")⟩)
          ⟨[("/a.vcf", "1\t2\t3\t4\t5\tx\n"), ("/b.vcf", "1\t2\tX\t4\t5\tx\n")],
           [], [], "/", 0, 0⟩
        = .error (.diffMismatch
            (diffCount (vcfPrepLines ("1\t2\t3\t4\t5\tx\n")) (vcfPrepLines ("1\t2\tX\t4\t5\tx\n")))
            0 ("/a.vcf") ("/b.vcf"))) :=
  ⟨(c6_vcf_columns ⟨.vcf, none, none, 0, .str ("/a.vcf")⟩
      ⟨.vcf, none, none, 0, .str ("/b.vcf")⟩ "/a.vcf" "/b.vcf"
      "#h\n1\t2\t3\t4\t5\t6\n" "#g\n1\t2\t3\t4\t5\tSEVEN\n"
      ⟨[("/a.vcf", "#h\n1\t2\t3\t4\t5\t6\n"), ("/b.vcf", "#g\n1\t2\t3\t4\t5\tSEVEN\n")],
       [], [], "/", 0, 0⟩ rfl rfl rfl rfl rfl rfl rfl).1 (by decide),
   (c6_vcf_columns ⟨.vcf, none, none, 0, .str ("/a.vcf")⟩
      ⟨.vcf, none, none, 0, .str ("/b.vcf")⟩ "/a.vcf" "/b.vcf"
      "1\t2\t3\t4\t5\tx\n" "1\t2\tX\t4\t5\tx\n"
      ⟨[("/a.vcf", "1\t2\t3\t4\t5\tx\n"), ("/b.vcf", "1\t2\tX\t4\t5\tx\n")],
       [], [], "/", 0, 0⟩ rfl rfl rfl rfl rfl rfl rfl).2 (by decide) rfl rfl⟩

/-! ## Lemmas about the output scan -/

theorem scanOutputs_cons (l : String) (rest : List String) (i : Nat) (st : Option Nat) :
    scanOutputs (l :: rest) i st =
      (if l = "\x7b" then
        match rest with
        | [] => .error .indexError
        | nxt :: _ =>
          if isOutputsLine nxt then scanOutputs rest (i + 1) (some i)
          else scanOutputs rest (i + 1) st
      else if l = "\x7d" then
        match st with
        | some s => .ok (s, i)
        | none => scanOutputs rest (i + 1) none
      else scanOutputs rest (i + 1) st) := rfl

theorem scanOutputs_step {a x : String} (rest : List String) (i : Nat)
    (h : trigPair a x = false) :
    scanOutputs (a :: x :: rest) i none = scanOutputs (x :: rest) (i + 1) none := by
  rw [scanOutputs_cons]
  by_cases ha : a = "\x7b"
  · rw [if_pos ha]
    have hx : isOutputsLine x = false := by simpa [trigPair, ha] using h
    dsimp only
    rw [hx]
    rfl
  · rw [if_neg ha]
    by_cases hd : a = "\x7d"
    · rw [if_pos hd]
    · rw [if_neg hd]

theorem scanOutputs_step_any {m : String} (rest : List String) (j : Nat) (st : Option Nat)
    (h1 : m ≠ "\x7b") (h2 : m ≠ "\x7d") :
    scanOutputs (m :: rest) j st = scanOutputs rest (j + 1) st := by
  rw [scanOutputs_cons, if_neg h1, if_neg h2]

theorem isOutputsLine_ne {l : String} (h : isOutputsLine l = true) :
    l ≠ "\x7b" ∧ l ≠ "\x7d" := by
  constructor <;> rintro rfl <;> revert h <;> decide

theorem scanOutputs_mid (s0 : Nat) (suf : List String) :
    ∀ (mid : List String) (j : Nat), (∀ l ∈ mid, l ≠ "\x7b" ∧ l ≠ "\x7d") →
      scanOutputs (mid ++ "\x7d" :: suf) j (some s0) = .ok (s0, j + mid.length) := by
  intro mid
  induction mid with
  | nil =>
    intro j _
    rw [List.nil_append, scanOutputs_cons,
        if_neg (by decide : ¬("\x7d" : String) = "\x7b"), if_pos rfl]
    simp
  | cons m mid ih =>
    intro j h
    rw [List.cons_append,
        scanOutputs_step_any _ _ _ (h m (List.mem_cons_self m mid)).1
          (h m (List.mem_cons_self m mid)).2,
        ih (j + 1) (fun l hl => h l (List.mem_cons_of_mem m hl))]
    rw [show (m :: mid).length = mid.length + 1 from rfl,
        show j + 1 + mid.length = j + (mid.length + 1) from by omega]

theorem scanOutputs_span (l2 : String) (mid suf : List String) (i : Nat)
    (hout : isOutputsLine l2 = true)
    (hmid : ∀ l ∈ mid, l ≠ "\x7b" ∧ l ≠ "\x7d") :
    scanOutputs ("\x7b" :: (l2 :: (mid ++ "\x7d" :: suf))) i none
      = .ok (i, i + mid.length + 2) := by
  rw [scanOutputs_cons, if_pos rfl]
  dsimp only
  rw [hout]
  rw [if_pos rfl,
      scanOutputs_step_any _ _ _ (isOutputsLine_ne hout).1 (isOutputsLine_ne hout).2,
      scanOutputs_mid i suf mid (i + 1 + 1) hmid,
      show i + 1 + 1 + mid.length = i + mid.length + 2 from by omega]

theorem scanOutputs_pre (b : String) (suf : List String) :
    ∀ (pre : List String) (i : Nat), preOk b pre = true →
      scanOutputs (pre ++ b :: suf) i none = scanOutputs (b :: suf) (i + pre.length) none := by
  intro pre
  induction pre with
  | nil =>
    intro i _
    simp
  | cons a pre ih =>
    intro i hok
    cases pre with
    | nil =>
      have ht : trigPair a b = false := by
        rw [show preOk b [a] = ((!trigPair a b) && true) from rfl] at hok
        simpa using hok
      rw [List.cons_append, List.nil_append, scanOutputs_step _ _ ht]
      rfl
    | cons c pre' =>
      rw [show preOk b (a :: c :: pre') = ((!trigPair a c) && preOk b (c :: pre')) from rfl,
          Bool.and_eq_true] at hok
      have ht : trigPair a c = false := by simpa using hok.1
      rw [List.cons_append,
          show (c :: pre') ++ b :: suf = c :: (pre' ++ b :: suf) from rfl,
          scanOutputs_step _ _ ht,
          show c :: (pre' ++ b :: suf) = (c :: pre') ++ b :: suf from rfl,
          ih (i + 1) hok.2,
          show i + 1 + (c :: pre').length = i + (a :: c :: pre').length from by
            simp [List.length_cons]; omega]

theorem scanOutputs_noTrig : ∀ (lines : List String) (i : Nat), noTrig lines = true →
    lines.getLast? ≠ some ("\x7b") → scanOutputs lines i none = .error .outputParse := by
  intro lines
  induction lines with
  | nil => intro i _ _; rfl
  | cons a rest ih =>
    intro i hok hlast
    cases rest with
    | nil =>
      have ha : a ≠ "\x7b" := fun h => hlast (by rw [h]; rfl)
      rw [scanOutputs_cons, if_neg ha]
      by_cases hd : a = "\x7d"
      · rw [if_pos hd]
        rfl
      · rw [if_neg hd]
        rfl
    | cons b rest' =>
      rw [show noTrig (a :: b :: rest') = ((!trigPair a b) && noTrig (b :: rest')) from rfl,
          Bool.and_eq_true] at hok
      have ht : trigPair a b = false := by simpa using hok.1
      rw [scanOutputs_step _ _ ht]
      exact ih (i + 1) hok.2 (by simpa [List.getLast?_cons_cons] using hlast)

/-! ## Claim C3 -/

/-- Claim C3 (counterexample): the claim says every text containing no
outputs span raises the "No outputs JSON found" `AssertionError`
(OutputParseError).  The one-line text `\x7b` contains no span, but the
scan evaluates `lines[i+1]` on its final line and raises `IndexError`
instead. -/
theorem c3_counterexample :
    getCromwellOutputs ("\x7b") = .error .indexError ∧
    PyErr.indexError ≠ PyErr.outputParse :=
  ⟨rfl, by decide⟩

/-- Claim C3 (amended): extraction scans line-by-line for a `\x7b` line
whose successor begins (after lstrip) with `"outputs":`, continues to the
first later bare `\x7d` line, and parses the inclusive span as JSON,
returning its `"outputs"` field.  It is robust to arbitrary log lines
before the span — provided they contain no spurious start trigger — and
to arbitrary lines after it; and for every text containing no start
trigger at all it raises OutputParseError, unless the final line is
itself `\x7b`, in which case the successor lookahead raises IndexError
(see the counterexample). -/
theorem c3_output_extraction :
    (∀ (pre : List String) (l2 : String) (mid suf : List String),
        preOk ("\x7b") pre = true → isOutputsLine l2 = true →
        (∀ l ∈ mid, l ≠ "\x7b" ∧ l ≠ "\x7d") →
        getCromwellOutputsLines (pre ++ ("\x7b" :: l2 :: mid ++ ["\x7d"]) ++ suf)
          = parseOutputsDoc ("\x7b" :: l2 :: mid ++ ["\x7d"]))
    ∧ (∀ lines : List String, noTrig lines = true → lines.getLast? ≠ some ("\x7b") →
        getCromwellOutputsLines lines = .error .outputParse) := by
  constructor
  · intro pre l2 mid suf hpre hout hmid
    have h2 : ("\x7b" :: l2 :: mid ++ ["\x7d"]) ++ suf
        = "\x7b" :: (l2 :: (mid ++ "\x7d" :: suf)) := by
      simp
    have hscan : scanOutputs (pre ++ ("\x7b" :: l2 :: mid ++ ["\x7d"]) ++ suf) 0 none
        = .ok (pre.length, pre.length + mid.length + 2) := by
      rw [List.append_assoc, h2, scanOutputs_pre ("\x7b") _ pre 0 hpre,
          scanOutputs_span l2 mid suf (0 + pre.length) hout hmid,
          show 0 + pre.length = pre.length from by omega]
    have hslice : (((pre ++ ("\x7b" :: l2 :: mid ++ ["\x7d"]) ++ suf).drop pre.length).take
        (pre.length + mid.length + 2 + 1 - pre.length)) = "\x7b" :: l2 :: mid ++ ["\x7d"] := by
      rw [List.append_assoc, List.drop_left,
          show pre.length + mid.length + 2 + 1 - pre.length = mid.length + 3 from by omega]
      exact List.take_left' (by simp)
    unfold getCromwellOutputsLines
    rw [hscan]
    show sliceParse _ pre.length (pre.length + mid.length + 2) = _
    unfold sliceParse
    rw [hslice]
  · intro lines hnt hlast
    unfold getCromwellOutputsLines
    rw [scanOutputs_noTrig lines 0 hnt hlast]

/-- Claim C3 witness: a span surrounded by log noise parses to the exact
nested outputs value; a trigger-free text raises OutputParseError. -/
theorem c3_output_extraction_witness :
    getCromwellOutputsLines
        (["2023-01-01 log", "junk \x7d line"] ++
          ("\x7b" :: "  \"outputs\": \x7b" :: ["    \"wf.out\": \"hello\"", "  \x7d"] ++ ["\x7d"])
          ++ ["trailing", "noise"])
      = parseOutputsDoc
          ("\x7b" :: "  \"outputs\": \x7b" :: ["    \"wf.out\": \"hello\"", "  \x7d"] ++ ["\x7d"]) ∧
    getCromwellOutputsLines ["only", "log", "lines"] = .error .outputParse :=
  ⟨c3_output_extraction.1 ["2023-01-01 log", "junk \x7d line"] "  \"outputs\": \x7b"
      ["    \"wf.out\": \"hello\"", "  \x7d"] ["trailing", "noise"]
      (by decide) (by decide) (by decide),
   c3_output_extraction.2 ["only", "log", "lines"] (by decide) (by decide)⟩

/-! ## Claim C7 -/

/-- The assertion loop distributes over concatenation: a failure in the
earlier pairs short-circuits, a success threads the world through. -/
theorem checkExpected_append (wf : String) (xs ys : List (String × PyVal))
    (outputs : List (String × Json)) :
    ∀ w : World,
      checkExpected wf (xs ++ ys) outputs w =
        match checkExpected wf xs outputs w with
        | .ok w' => checkExpected wf ys outputs w'
        | .error e => .error e := by
  induction xs with
  | nil => intro w; rfl
  | cons p xs ih =>
    obtain ⟨name, ev⟩ := p
    intro w
    simp only [List.cons_append, checkExpected]
    cases hk : alookup outputs (wf ++ "." ++ name) with
    | none => rfl
    | some out =>
      cases ev with
      | json j =>
        dsimp only
        by_cases hb : Json.beq j out = true
        · rw [hb, if_pos rfl, if_pos rfl]
          exact ih w
        · have hb' : Json.beq j out = false := by simpa using hb
          rw [hb', if_neg (by decide : ¬(false = true)),
              if_neg (by decide : ¬(false = true))]
      | file df =>
        dsimp only
        cases out with
        | str p =>
          dsimp only
          cases hac : assertContentsEqual df (.path p) w with
          | ok w' => exact ih w'
          | error e => rfl
        | null => rfl
        | bool b => rfl
        | num n => rfl
        | arr l => rfl
        | obj fs => rfl

/-- Claim C7: after a successful run, for every `(name, expected_value)`
pair of the expected mapping (here: the first pair not preceded by a
failure), with `key = "{workflow_name}.{name}"`: a key absent from the
extracted outputs raises the `AssertionError` naming the key
(MissingOutputError); a `DataFile` expected value delegates to its
`assert_contents_equal` against the output value, propagating its
outcome; any other expected value must compare equal (Python `==`) to the
output value, and inequality raises the bare assertion
(OutputMismatchError). -/
theorem c7_expected_checks (wf : String) (pre : List (String × PyVal)) (name : String)
    (v : PyVal) (post : List (String × PyVal)) (outputs : List (String × Json))
    (w w' : World) (hpre : checkExpected wf pre outputs w = .ok w') :
    (alookup outputs (wf ++ "." ++ name) = none →
      checkExpected wf (pre ++ (name, v) :: post) outputs w
        = .error (.missingOutput (wf ++ "." ++ name)))
    ∧ (∀ df p w'', v = .file df → alookup outputs (wf ++ "." ++ name) = some (.str p) →
        assertContentsEqual df (.path p) w' = .ok w'' →
        checkExpected wf (pre ++ (name, v) :: post) outputs w
          = checkExpected wf post outputs w'')
    ∧ (∀ df p e, v = .file df → alookup outputs (wf ++ "." ++ name) = some (.str p) →
        assertContentsEqual df (.path p) w' = .error e →
        checkExpected wf (pre ++ (name, v) :: post) outputs w = .error e)
    ∧ (∀ j out, v = .json j → alookup outputs (wf ++ "." ++ name) = some out →
        Json.beq j out = false →
        checkExpected wf (pre ++ (name, v) :: post) outputs w = .error .assertionFailed)
    ∧ (∀ j out, v = .json j → alookup outputs (wf ++ "." ++ name) = some out →
        Json.beq j out = true →
        checkExpected wf (pre ++ (name, v) :: post) outputs w
          = checkExpected wf post outputs w') := by
  refine ⟨?_, ?_, ?_, ?_, ?_⟩
  · intro hk
    rw [checkExpected_append wf pre ((name, v) :: post) outputs w, hpre]
    show checkExpected wf ((name, v) :: post) outputs w' = _
    simp only [checkExpected]
    rw [hk]
  · intro df p w'' hv hk hac
    subst hv
    rw [checkExpected_append wf pre ((name, .file df) :: post) outputs w, hpre]
    show checkExpected wf ((name, .file df) :: post) outputs w' = _
    simp only [checkExpected]
    rw [hk]
    dsimp only
    rw [hac]
  · intro df p e hv hk hac
    subst hv
    rw [checkExpected_append wf pre ((name, .file df) :: post) outputs w, hpre]
    show checkExpected wf ((name, .file df) :: post) outputs w' = _
    simp only [checkExpected]
    rw [hk]
    dsimp only
    rw [hac]
  · intro j out hv hk hb
    subst hv
    rw [checkExpected_append wf pre ((name, .json j) :: post) outputs w, hpre]
    show checkExpected wf ((name, .json j) :: post) outputs w' = _
    simp only [checkExpected]
    rw [hk]
    dsimp only
    rw [hb, if_neg (by decide : ¬(false = true))]
  · intro j out hv hk hb
    subst hv
    rw [checkExpected_append wf pre ((name, .json j) :: post) outputs w, hpre]
    show checkExpected wf ((name, .json j) :: post) outputs w' = _
    simp only [checkExpected]
    rw [hk]
    dsimp only
    rw [hb, if_pos rfl]

/-- Claim C7 witness: a missing qualified key, a literal mismatch, and a
literal match on the outputs `\x7b"wf.a": 5\x7d`. -/
theorem c7_expected_checks_witness :
    checkExpected ("wf") [("missing", .json (Json.num 1))] [("wf.a", Json.num 5)]
        ⟨[], [], [], "/", 0, 0⟩
      = .error (.missingOutput ("wf.missing")) ∧
    checkExpected ("wf") [("a", .json (Json.num 6))] [("wf.a", Json.num 5)]
        ⟨[], [], [], "/", 0, 0⟩
      = .error .assertionFailed ∧
    checkExpected ("wf") [("a", .json (Json.num 5))] [("wf.a", Json.num 5)]
        ⟨[], [], [], "/", 0, 0⟩
      = .ok ⟨[], [], [], "/", 0, 0⟩ :=
  ⟨(c7_expected_checks ("wf") [] "missing" (.json (Json.num 1)) [] [("wf.a", Json.num 5)]
      ⟨[], [], [], "/", 0, 0⟩ ⟨[], [], [], "/", 0, 0⟩ rfl).1 rfl,
   (c7_expected_checks ("wf") [] "a" (.json (Json.num 6)) [] [("wf.a", Json.num 5)]
      ⟨[], [], [], "/", 0, 0⟩ ⟨[], [], [], "/", 0, 0⟩ rfl).2.2.2.1 (Json.num 6) (Json.num 5)
      rfl rfl (by decide),
   (c7_expected_checks ("wf") [] "a" (.json (Json.num 5)) [] [("wf.a", Json.num 5)]
      ⟨[], [], [], "/", 0, 0⟩ ⟨[], [], [], "/", 0, 0⟩ rfl).2.2.2.2 (Json.num 5) (Json.num 5)
      rfl rfl (by decide)⟩

/-! ## Claim C8 -/

theorem resolvePath_ok_pathRef {df : DataFile} {w w' : World} {p : String}
    (h : resolvePath df w = .ok (p, w')) : df.pathRef = .str p := by
  unfold resolvePath at h
  cases hr : df.pathRef with
  | fdPair n =>
    rw [hr] at h
    exact Except.noConfusion h
  | str q =>
    rw [hr] at h
    dsimp only at h
    split at h
    · cases h
      rfl
    · split at h
      · cases h
        rfl
      · exact Except.noConfusion h

/-- The serialized inputs mapping is flat: for each `(key, value)` input
pair, in order, one entry `("{workflow_name}.{key}", literal-or-path)`,
where a `DataFile` value contributes its resolved target path. -/
theorem buildCromwellInputs_shape (wf : String) :
    ∀ (inputs : List (String × PyVal)) (w0 : World) (pairs : List (String × Json)) (w1 : World),
      buildCromwellInputs wf inputs w0 = .ok (pairs, w1) →
      List.Forall₂ (fun (inp : String × PyVal) (pr : String × Json) =>
        pr.1 = wf ++ "." ++ inp.1 ∧
        ((∃ j, inp.2 = .json j ∧ pr.2 = j) ∨
         (∃ df p, inp.2 = .file df ∧ df.pathRef = .str p ∧ pr.2 = .str p))) inputs pairs := by
  intro inputs
  induction inputs with
  | nil =>
    intro w0 pairs w1 h
    simp only [buildCromwellInputs] at h
    cases h
    exact List.Forall₂.nil
  | cons kv rest ih =>
    obtain ⟨k, v⟩ := kv
    intro w0 pairs w1 h
    simp only [buildCromwellInputs] at h
    split at h
    · exact Except.noConfusion h
    · rename_i r heq
      split at h
      · exact Except.noConfusion h
      · rename_i r2 heq2
        cases h
        refine List.Forall₂.cons ⟨rfl, ?_⟩ (ih r.2 r2.1 r2.2 heq2)
        cases v with
        | json j =>
          left
          refine ⟨j, rfl, ?_⟩
          simp only [serializeInput] at heq
          cases heq
          rfl
        | file df =>
          right
          simp only [serializeInput] at heq
          split at heq
          · rename_i rp hrp
            cases heq
            exact ⟨df, rp.1, rfl, resolvePath_ok_pathRef (by rw [hrp]), rfl⟩
          · exact Except.noConfusion heq

/-- Claim C8 (counterexample): the claim exempts only a pre-existing
**non-empty** inputs file from regeneration, so with a pre-existing empty
file it predicts serialization and a write; the code checks existence
only, deserializes the empty file, and `json.load` fails. -/
theorem c8_counterexample :
    fsGet ⟨[("/inputs.json", "")], [], [], "/", 0, 0⟩ "/inputs.json" = some ("") ∧
    prepareInputsFile ("wf") [] (some ("/inputs.json")) ⟨[("/inputs.json", "")], [], [], "/", 0, 0⟩
      = .error .jsonDecodeError :=
  ⟨rfl, rfl⟩

/-- Claim C8 (amended: only existence of the supplied inputs file is
checked, not non-emptiness — an existing but invalid/empty file is
deserialized and the decode error propagates): when no file exists at the
(absolutized) supplied path, `run_workflow` serializes the inputs as the
flat mapping from `"{workflow_name}.{key}"` to the literal value or the
resolved path of a `DataFile` and writes its JSON dump to that file; when
a file already exists there, it deserializes that file instead, performs
no write, and the loaded bindings — identical for any two caller input
mappings — are what it goes on to log. -/
theorem c8_inputs_file (wf : String) (inputs : List (String × PyVal)) (f0 : String)
    (w : World) :
    (∀ content j, fsGet w (pyAbspath w.cwd f0) = some content →
      jsonParse content = some j →
      prepareInputsFile wf inputs (some f0) w = .ok (pyAbspath w.cwd f0, j, false, w))
    ∧ (∀ content, fsGet w (pyAbspath w.cwd f0) = some content →
        ∀ inputs' : List (String × PyVal),
          prepareInputsFile wf inputs (some f0) w
            = prepareInputsFile wf inputs' (some f0) w)
    ∧ (∀ pairs w1, pathExists w (pyAbspath w.cwd f0) = false →
        buildCromwellInputs wf inputs (makeDirs w (dirName (pyAbspath w.cwd f0)))
          = .ok (pairs, w1) →
        prepareInputsFile wf inputs (some f0) w
          = .ok (pyAbspath w.cwd f0, Json.obj pairs, true,
              writeFileW w1 (pyAbspath w.cwd f0) (Json.dump (Json.obj pairs)))
        ∧ List.Forall₂ (fun (inp : String × PyVal) (pr : String × Json) =>
            pr.1 = wf ++ "." ++ inp.1 ∧
            ((∃ j, inp.2 = .json j ∧ pr.2 = j) ∨
             (∃ df p, inp.2 = .file df ∧ df.pathRef = .str p ∧ pr.2 = .str p)))
            inputs pairs) := by
  have hred : ∀ (ins : List (String × PyVal)), prepareInputsFile wf ins (some f0) w =
      (if pathExists w (pyAbspath w.cwd f0) = true then
        match fsGet w (pyAbspath w.cwd f0) with
        | none => .error .osError
        | some content =>
          match jsonParse content with
          | none => .error .jsonDecodeError
          | some j => .ok (pyAbspath w.cwd f0, j, false, w)
       else
        writeInputsFile wf ins (pyAbspath w.cwd f0)
          (makeDirs w (dirName (pyAbspath w.cwd f0)))) := fun ins => rfl
  refine ⟨?_, ?_, ?_⟩
  · intro content j hc hj
    rw [hred inputs, if_pos (pathExists_of_fsGet hc), hc]
    dsimp only
    rw [hj]
  · intro content hc inputs'
    rw [hred inputs, hred inputs', if_pos (pathExists_of_fsGet hc),
        if_pos (pathExists_of_fsGet hc)]
  · intro pairs w1 hex hbuild
    constructor
    · rw [hred inputs, hex, if_neg (by decide : ¬(false = true))]
      unfold writeInputsFile
      rw [hbuild]
    · exact buildCromwellInputs_shape wf inputs _ pairs w1 hbuild

/-- Claim C8 witness: the write branch serializes a literal and a
materialized file path; the reuse branch returns the loaded bindings. -/
theorem c8_inputs_file_witness :
    prepareInputsFile ("wf") [("k", .json (Json.num 3)), ("f", .file ⟨.default, none, none, 0, .str ("/d/f")⟩)]
        (some ("/in.json")) ⟨[("/d/f", "x")], [], [], "/", 0, 0⟩
      = .ok ("/in.json", Json.obj [("wf.k", Json.num 3), ("wf.f", Json.str ("/d/f"))], true,
          writeFileW ⟨[("/d/f", "x")], ["/"], [], "/", 0, 0⟩ "/in.json"
            (Json.dump (Json.obj [("wf.k", Json.num 3), ("wf.f", Json.str ("/d/f"))]))) ∧
    prepareInputsFile ("wf") [("other", .json Json.null)] (some ("/have.json"))
        ⟨[("/have.json", "\x7b\"wf.x\": 1\x7d")], [], [], "/", 0, 0⟩
      = .ok ("/have.json", Json.obj [("wf.x", Json.num 1)], false,
          ⟨[("/have.json", "\x7b\"wf.x\": 1\x7d")], [], [], "/", 0, 0⟩) :=
  ⟨((c8_inputs_file ("wf") [("k", .json (Json.num 3)), ("f", .file ⟨.default, none, none, 0, .str ("/d/f")⟩)]
      "/in.json" ⟨[("/d/f", "x")], [], [], "/", 0, 0⟩).2.2
      [("wf.k", Json.num 3), ("wf.f", Json.str ("/d/f"))] ⟨[("/d/f", "x")], ["/"], [], "/", 0, 0⟩
      (by decide) rfl).1,
   (c8_inputs_file ("wf") [("other", .json Json.null)] "/have.json"
      ⟨[("/have.json", "\x7b\"wf.x\": 1\x7d")], [], [], "/", 0, 0⟩).1
      "\x7b\"wf.x\": 1\x7d" (Json.obj [("wf.x", Json.num 1)]) rfl rfl⟩

/-! ## Claim C9 -/

theorem listContainsStr_filter_not (f : String → Bool) (x : String) (hx : f x = false) :
    ∀ l : List String, listContainsStr (l.filter f) x = false := by
  intro l
  induction l with
  | nil => rfl
  | cons d rest ih =>
    rw [List.filter_cons]
    by_cases hd : f d = true
    · rw [if_pos hd]
      have hdx : d ≠ x := fun h => by rw [h, hx] at hd; exact Bool.noConfusion hd
      simp only [listContainsStr, if_neg hdx]
      exact ih
    · rw [if_neg hd]
      exact ih

theorem dirExists_rmTree_self (w : World) (d : String) :
    dirExists (rmTree w d) d = false := by
  unfold dirExists rmTree
  exact listContainsStr_filter_not _ d (by simp) w.dirs

/-- Claim C9: with an environment override naming a nonexistent path, the
directory resolver resolves it (relative to the project root when not
absolute), creates the directory, and its scope-exit step deletes
nothing — the final world is exactly whatever the body produced.  With no
override it creates a fresh temporary directory and deletes it on scope
exit for every body outcome, normal or exceptional. -/
theorem c9_test_dir (envar root : String) (env : List (String × String)) (w : World) :
    (∀ t, alookup env envar = some t → t ≠ "" →
      pathExists w (if isAbsPath t = true then t else pyAbspath w.cwd (joinPath root t)) = false →
      (testDirEnter envar root env w
          = (if isAbsPath t = true then t else pyAbspath w.cwd (joinPath root t), false,
             makeDirs w (if isAbsPath t = true then t else pyAbspath w.cwd (joinPath root t))) ∧
       dirExists (makeDirs w (if isAbsPath t = true then t else pyAbspath w.cwd (joinPath root t)))
          (if isAbsPath t = true then t else pyAbspath w.cwd (joinPath root t)) = true ∧
       ∀ body : String → World → Except PyErr Unit × World,
         withTestDir envar root env body w
           = body (if isAbsPath t = true then t else pyAbspath w.cwd (joinPath root t))
               (makeDirs w (if isAbsPath t = true then t else pyAbspath w.cwd (joinPath root t)))))
    ∧ (alookup env envar = none →
        (testDirEnter envar root env w = ((mkdTemp w).1, true, (mkdTemp w).2) ∧
         ∀ body : String → World → Except PyErr Unit × World,
           (withTestDir envar root env body w).1 = (body (mkdTemp w).1 (mkdTemp w).2).1 ∧
           (withTestDir envar root env body w).2
             = rmTree (body (mkdTemp w).1 (mkdTemp w).2).2 (mkdTemp w).1 ∧
           dirExists (withTestDir envar root env body w).2 (mkdTemp w).1 = false)) := by
  constructor
  · intro t ht htne hex
    have henter : testDirEnter envar root env w
        = (if isAbsPath t = true then t else pyAbspath w.cwd (joinPath root t), false,
           makeDirs w (if isAbsPath t = true then t else pyAbspath w.cwd (joinPath root t))) := by
      unfold testDirEnter
      rw [ht]
      dsimp only
      rw [if_neg htne, hex]
      rw [if_neg (by decide : ¬(false = true))]
    refine ⟨henter, by simp [dirExists, makeDirs, listContainsStr], ?_⟩
    intro body
    unfold withTestDir
    rw [henter]
    rfl
  · intro ht
    have henter : testDirEnter envar root env w = ((mkdTemp w).1, true, (mkdTemp w).2) := by
      unfold testDirEnter
      rw [ht]
      rfl
    refine ⟨henter, ?_⟩
    intro body
    refine ⟨?_, ?_, ?_⟩
    · unfold withTestDir
      rw [henter]
    · unfold withTestDir
      rw [henter]
      rfl
    · unfold withTestDir
      rw [henter]
      exact dirExists_rmTree_self _ _

/-- Claim C9 witness: an override creating `/cache` persists it through a
normal body; without an override, the temporary directory is removed even
when the body raises (and creates content below the directory). -/
theorem c9_test_dir_witness :
    (withTestDir ("TEST_DATA_DIR") "/proj" [("TEST_DATA_DIR", "cache")]
        (fun d w => (.ok (), makeDirs w (d ++ "/sub"))) ⟨[], [], [], "/", 0, 0⟩
      = (.ok (), makeDirs (makeDirs ⟨[], [], [], "/", 0, 0⟩ "/proj/cache") ("/proj/cache" ++ "/sub"))) ∧
    dirExists (withTestDir ("TEST_DATA_DIR") "/proj" []
        (fun d w => (.error .valueError, writeFileW w (d ++ "/leftover") "x"))
        ⟨[], [], [], "/", 0, 0⟩).2 (mkdTemp ⟨[], [], [], "/", 0, 0⟩).1 = false :=
  ⟨by
    have h := ((c9_test_dir ("TEST_DATA_DIR") "/proj" [("TEST_DATA_DIR", "cache")]
      ⟨[], [], [], "/", 0, 0⟩).1 ("cache") rfl (by decide) (by decide)).2.2
      (fun d w => (.ok (), makeDirs w (d ++ "/sub")))
    exact h,
   ((c9_test_dir ("TEST_DATA_DIR") "/proj" [] ⟨[], [], [], "/", 0, 0⟩).2 rfl).2
      (fun d w => (.error .valueError, writeFileW w (d ++ "/leftover") "x")) |>.2.2⟩

/-! ## Claim C10 -/

theorem alookup_map_update (name : String) (newv : Json) :
    ∀ m : List (String × Json),
      (∀ other, other ≠ name →
        alookup (m.map (fun kv => if kv.1 = name then (kv.1, newv) else kv)) other
          = alookup m other)
      ∧ (∀ v0, alookup m name = some v0 →
          alookup (m.map (fun kv => if kv.1 = name then (kv.1, newv) else kv)) name
            = some newv) := by
  intro m
  induction m with
  | nil => exact ⟨fun _ _ => rfl, fun v0 h => Option.noConfusion h⟩
  | cons kv rest ih =>
    obtain ⟨k, v⟩ := kv
    constructor
    · intro other hother
      rw [List.map_cons]
      by_cases hk : k = name
      · have hko : ¬(k = other) := fun h => hother (by rw [← h, hk])
        rw [if_pos hk]
        simp only [alookup]
        rw [if_neg hko, if_neg hko]
        exact ih.1 other hother
      · rw [if_neg hk]
        simp only [alookup]
        by_cases hko : k = other
        · rw [if_pos hko, if_pos hko]
        · rw [if_neg hko, if_neg hko]
          exact ih.1 other hother
    · intro v0 h
      rw [List.map_cons]
      by_cases hk : k = name
      · rw [if_pos hk]
        simp only [alookup]
        rw [if_pos hk]
      · rw [if_neg hk]
        simp only [alookup] at h ⊢
        rw [if_neg hk] at h
        rw [if_neg hk]
        exact ih.2 v0 h

/-- Claim C10 (counterexample): realizing the manifest entry
`x → \x7b"type": "vcf", "path": "p.vcf"\x7d` removes the `"type"` key from
the descriptor stored in the catalog's manifest mapping —
`value.pop("type", "default")` mutates the dict held in `self._data`. -/
theorem c10_counterexample :
    alookup (DataCat.manifest
        ⟨"/data", [], [("x", Json.obj [("type", Json.str ("vcf")), ("path", Json.str ("p.vcf"))])]⟩) "x"
      = some (Json.obj [("type", Json.str ("vcf")), ("path", Json.str ("p.vcf"))]) ∧
    getData ("x") ⟨"/data", [], [("x", Json.obj [("type", Json.str ("vcf")), ("path", Json.str ("p.vcf"))])]⟩
        ⟨[], [], [], "/", 0, 0⟩
      = .ok (.file ⟨.vcf, none, none, 0, .str ("/data/p.vcf")⟩,
          ⟨"/data", [("x", .file ⟨.vcf, none, none, 0, .str ("/data/p.vcf")⟩)],
           [("x", Json.obj [("path", Json.str ("p.vcf"))])]⟩,
          ⟨[], [], [], "/", 0, 0⟩) ∧
    alookup [("path", Json.str ("p.vcf"))] "type" = (none : Option Json) ∧
    alookup [("type", Json.str ("vcf")), ("path", Json.str ("p.vcf"))] "type"
      = some (Json.str ("vcf")) :=
  ⟨rfl, rfl, rfl, rfl⟩

/-- Claim C10 (amended): `Data.__getitem__` leaves the loaded manifest
mapping unchanged on cached accesses and for primitive values; but on the
first realization of a record-valued entry it rewrites the stored
descriptor to the record with its `"type"` key removed (so a descriptor
carrying a `"type"` field is *not* identical before and after the call),
while every other name still maps to its original descriptor. -/
theorem c10_manifest_mutation (name : String) (st : DataCat) (w : World) :
    (∀ v, alookup st.values name = some v → getData name st w = .ok (v, st, w))
    ∧ (∀ prim, alookup st.values name = none → alookup st.manifest name = some prim →
        (∀ fields, prim ≠ Json.obj fields) →
        getData name st w
          = .ok (.json prim, { st with values := (name, .json prim) :: st.values }, w))
    ∧ (∀ fields, alookup st.values name = none →
        alookup st.manifest name = some (.obj fields) →
        ∀ res, getData name st w = .ok res →
          (alookup res.2.1.manifest name
              = some (.obj (fields.filter (fun kv => decide (¬(kv.1 = "type"))))) ∧
           ∀ other, other ≠ name →
             alookup res.2.1.manifest other = alookup st.manifest other)) := by
  refine ⟨?_, ?_, ?_⟩
  · intro v hv
    unfold getData
    rw [hv]
  · intro prim hv hm hne
    unfold getData
    rw [hv]
    dsimp only
    rw [hm]
    cases prim with
    | obj fields => exact absurd rfl (hne fields)
    | null => rfl
    | bool b => rfl
    | num n => rfl
    | str s => rfl
    | arr l => rfl
  · intro fields hv hm res hres
    unfold getData at hres
    rw [hv] at hres
    dsimp only at hres
    rw [hm] at hres
    dsimp only at hres
    have hman : res.2.1.manifest
        = st.manifest.map (fun kv =>
            if kv.1 = name then (kv.1, Json.obj (fields.filter (fun kv => decide (¬(kv.1 = "type"))))) else kv) := by
      split at hres
      · split at hres
        · exact Except.noConfusion hres
        · split at hres
          · split at hres
            · exact Except.noConfusion hres
            · split at hres
              · exact Except.noConfusion hres
              · split at hres
                · exact Except.noConfusion hres
                · split at hres
                  · exact Except.noConfusion hres
                  · split at hres
                    · exact Except.noConfusion hres
                    · cases hres
                      rfl
          · exact Except.noConfusion hres
      · exact Except.noConfusion hres
    rw [hman]
    exact ⟨(alookup_map_update name _ st.manifest).2 (.obj fields) hm,
           fun other hother => (alookup_map_update name _ st.manifest).1 other hother⟩

/-- Claim C10 witness: a cached name and a primitive-valued name leave the
catalog state unchanged (beyond the value cache). -/
theorem c10_manifest_mutation_witness :
    getData ("hit") ⟨"/d", [("hit", .json (Json.num 7))], [("p", Json.str ("lit"))]⟩
        ⟨[], [], [], "/", 0, 0⟩
      = .ok (.json (Json.num 7),
          ⟨"/d", [("hit", .json (Json.num 7))], [("p", Json.str ("lit"))]⟩,
          ⟨[], [], [], "/", 0, 0⟩) ∧
    getData ("p") ⟨"/d", [("hit", .json (Json.num 7))], [("p", Json.str ("lit"))]⟩
        ⟨[], [], [], "/", 0, 0⟩
      = .ok (.json (Json.str ("lit")),
          ⟨"/d", [("p", .json (Json.str ("lit"))), ("hit", .json (Json.num 7))],
           [("p", Json.str ("lit"))]⟩,
          ⟨[], [], [], "/", 0, 0⟩) :=
  ⟨(c10_manifest_mutation ("hit") ⟨"/d", [("hit", .json (Json.num 7))], [("p", Json.str ("lit"))]⟩
      ⟨[], [], [], "/", 0, 0⟩).1 (.json (Json.num 7)) rfl,
   (c10_manifest_mutation ("p") ⟨"/d", [("hit", .json (Json.num 7))], [("p", Json.str ("lit"))]⟩
      ⟨[], [], [], "/", 0, 0⟩).2.1 (Json.str ("lit")) rfl rfl
      (fun fields h => Json.noConfusion h)⟩

end PytestCromwell
